import Mathlib

/-!
Verification development for the DGDS adventure-engine core: the dialog
text-layout / hit-testing functions (`dialog.cpp`), the action-selection
state machine, the scene-transition controller and the save-state
synchronizer (`dgds.cpp`).  C++ code is shallowly embedded: strings are
`List Char`, machine integers are `Int` (all quantities involved stay far
below 16/32-bit bounds), C++ truncated division/modulo are `Int.tdiv` /
`Int.tmod`, fallible or fatal paths return `Option`.  External collaborators
(font provider, resource loader, scene/ADS/sound subsystems) are modelled
as parameters, following the interfaces described in the design document.
-/

namespace DgdsSpec

/-- Rectangle as used by `DgdsRect` (x, y, width, height). -/
structure DgdsRect where
  x : Int
  y : Int
  width : Int
  height : Int
deriving DecidableEq

/-- Modelled from the spec: the external font-metrics provider interface
(`maxCharWidth()`, `fontHeight()`, `charWidth(ch)`, `wordWrap(s, maxWidth)
-> (lines, maxLineWidth)`).  `charWidth` takes the character code as a
`Nat` (the C++ call sites pass either a `char` or an `int` offset to it).
The font implementation itself is not part of the inspected source. -/
structure FontMetrics where
  charWidth : Nat → Int
  maxCharWidth : Int
  fontHeight : Int
  wordWrap : List Char → Int → List (List Char) × Int

/-- Modelled from the spec: `getStringWidth` of the font provider, "compute
x by summing glyph widths of preceding characters on that line". -/
def stringWidth (font : FontMetrics) : List Char → Int
  | [] => 0
  | c :: rest => font.charWidth c.toNat + stringWidth font rest

/-- `Common::String::substr(pos, len)` on a `List Char`. -/
def strSubstr (s : List Char) (pos len : Nat) : List Char :=
  (s.drop pos).take len

/-- A selectable action's character-offset span (`DialogAction`). -/
structure DialogAction where
  strStart : Nat
  strEnd : Nat
deriving DecidableEq

/-- Dialog flag bits queried or cleared by the embedded code, as named
booleans (the numeric bit values live in the header, outside the inspected
source; only membership matters here). -/
structure DialogFlags where
  visible : Bool := false
  flatBg : Bool := false
  leftJust : Bool := false
  hiFinished : Bool := false
  redrawSelectedActionChanged : Bool := false
  hi10 : Bool := false
  hi20 : Bool := false
  hi40 : Bool := false
deriving DecidableEq

/-- Transient `DialogState`.  `selectedAction` is the pointer into the
action list, modelled as an index. -/
structure DialogState where
  hideTime : Nat := 0
  loc : DgdsRect := ⟨0, 0, 0, 0⟩
  lastMouseX : Int := 0
  lastMouseY : Int := 0
  charWidth : Int := 0
  charHeight : Int := 0
  strMouseLoc : Int := 0
  selectedAction : Option Nat := none
deriving DecidableEq

/-- Modelled from the spec: the default-constructed `DialogState` (created
lazily on first draw) starts with all-zero fields and no selected action. -/
def freshDialogState : DialogState := {}

/-- The dialog draw stages (`DialogDrawStage`). -/
inductive DialogDrawStage where
  | background
  | findSelectionPointXY
  | findSelectionTxtOffset
  | foreground
deriving DecidableEq

/-- A `Dialog`.  `frameType` keeps the numeric tag read from game data
(1 = plain, 2 = bordered, 3 = thought, 4 = rounded; anything else is the
fatal `default:` branch of `Dialog::draw`). -/
structure Dialog where
  num : Nat := 0
  rect : DgdsRect := ⟨0, 0, 0, 0⟩
  bgColor : Nat := 0
  fontColor : Nat := 0
  selectionBgCol : Nat := 0
  selectonFontCol : Nat := 0
  fontSize : Nat := 0
  flags : DialogFlags := {}
  frameType : Nat := 1
  str : List Char := []
  action : List DialogAction := []
  state : Option DialogState := none
deriving DecidableEq

/-! ## Wrapped-line offset accounting (`_wrappedLineOffsets`) -/

/-- Character offset of line `k` in the original string: each earlier line
consumes `length + 1` characters (the `+1` is the elided break character). -/
def chainOff : List (List Char) → Nat → Nat
  | _, 0 => 0
  | [], _ + 1 => 0
  | l :: rest, k + 1 => l.length + 1 + chainOff rest k

/-- Helper for `wrappedLineOffsets`: one offset per line, then the final
`s.size()` entry. -/
def wloAux (slen : Nat) : List (List Char) → Nat → List Nat
  | [], _ => [slen]
  | l :: rest, off => off :: wloAux slen rest (off + l.length + 1)

/-- `_wrappedLineOffsets(s, lines)`: offsets of each wrapped line into the
original string, with one extra final entry equal to `s.size()`. -/
def wrappedLineOffsets (s : List Char) (lines : List (List Char)) : List Nat :=
  wloAux s.length lines 0

/-- The line-start offsets only (no final sentinel entry). -/
def lineStartsAux : List (List Char) → Nat → List Nat
  | [], _ => []
  | l :: rest, off => off :: lineStartsAux rest (off + l.length + 1)

/-- Offsets at which a wrapped line starts in the original string. -/
def lineStarts (lines : List (List Char)) : List Nat :=
  lineStartsAux lines 0

/-! ## `Dialog::drawFindSelectionXY` -/

/-- The line-location loop of `drawFindSelectionXY`: accumulate
`line.size() + 1` characters per line while that total does not pass the
target offset.  Returns `(totalchars, lineno)`. -/
def xyFindLine : List (List Char) → Int → Nat × Nat
  | [], _ => (0, 0)
  | l :: rest, loc =>
    if (l.length : Int) + 1 > loc then (0, 0)
    else
      let p := xyFindLine rest (loc - ((l.length : Int) + 1))
      (l.length + 1 + p.1, p.2 + 1)

/-- The x position `drawFindSelectionXY` computes for offset `o` before its
right-edge overflow check: the (possibly centering-shifted) text-area left
edge plus the width of the characters preceding `o` on its line. -/
def xyComputedX (font : FontMetrics) (s : List Char) (leftJust : Bool)
    (loc : DgdsRect) (o : Int) : Int :=
  let wrap := font.wordWrap s loc.width
  let x := if leftJust then loc.x + Int.tdiv (loc.width - wrap.2 - 1) 2 else loc.x
  let fl := xyFindLine wrap.1 o
  x + stringWidth font (strSubstr s fl.1 (o - (fl.1 : Int)).toNat)

/-- `Dialog::drawFindSelectionXY`: resolve `_strMouseLoc` to a mouse
position (`_lastMouseX`/`_lastMouseY`) plus glyph metrics. -/
def drawFindSelectionXY (font : FontMetrics) (s : List Char) (leftJust : Bool)
    (st0 : DialogState) : DialogState :=
  let x := st0.loc.x
  let y := st0.loc.y + 1
  let st := { st0 with lastMouseX := x, lastMouseY := y,
                       charWidth := font.maxCharWidth, charHeight := font.fontHeight }
  if st.strMouseLoc = 0 then st
  else
    let wrap := font.wordWrap s st.loc.width
    let lines := wrap.1
    let maxWidth := wrap.2
    let x := if leftJust then x + Int.tdiv (st.loc.width - maxWidth - 1) 2 else x
    let y := if leftJust then
        y + Int.tdiv (st.loc.height - (lines.length : Int) * st.charHeight - 1) 2
      else y
    let mloc := if (s.length : Int) ≤ st.strMouseLoc then (s.length : Int) - 1
      else st.strMouseLoc
    let st := { st with strMouseLoc := mloc }
    let fl := xyFindLine lines mloc
    let y := y + (fl.2 : Int) * st.charHeight
    let x := x + stringWidth font (strSubstr s fl.1 (mloc - (fl.1 : Int)).toNat)
    if st.loc.x + st.loc.width < x + font.charWidth mloc.toNat then
      if s.getD mloc.toNat (Char.ofNat 0) < '!' then
        { st with charHeight := 0, charWidth := 0, lastMouseY := 0, lastMouseX := 0 }
      else
        { st with lastMouseX := st.loc.x, lastMouseY := y + st.charHeight,
                  charWidth := font.charWidth mloc.toNat }
    else
      { st with lastMouseX := x, lastMouseY := y,
                charWidth := font.charWidth mloc.toNat }

/-! ## `Dialog::drawFindSelectionTxtOffset` -/

/-- The first loop of `drawFindSelectionTxtOffset`: advance a line at a
time while the line's bottom edge (`dlgy + lineHeight`) is above the target
y.  Returns `(lineno, totalchars, dlgy)`. -/
def tlFindLine (lh my : Int) (offs : List Nat) :
    List (List Char) → Nat → Nat → Int → Nat × Nat × Int
  | [], lineno, total, dlgy => (lineno, total, dlgy)
  | _ :: rest, lineno, total, dlgy =>
    if dlgy + lh < my then
      tlFindLine lh my offs rest (lineno + 1) (offs.getD (lineno + 1) 0) (dlgy + lh)
    else (lineno, total, dlgy)

/-- The per-character loop: accumulate glyph widths until the target x is
at or before the current character's right edge; `charno` is the index
within the line. -/
def tlScanChars (font : FontMetrics) (mx : Int) :
    List Char → Int → Nat → Option Nat
  | [], _, _ => none
  | c :: rest, dlgx, charno =>
    let w := font.charWidth c.toNat
    if mx ≤ dlgx + w then some charno
    else tlScanChars font mx rest (dlgx + w) (charno + 1)

/-- The outer `while (lineno < lines.size())` loop: scan each remaining
line, resetting x to `startx` at each new line and adding
`line.size() + 1` to the running character total. -/
def tlScanLines (font : FontMetrics) (mx startx : Int) :
    List (List Char) → Nat → Option Nat
  | [], _ => none
  | line :: rest, total =>
    match tlScanChars font mx line startx 0 with
    | some c => some (total + c)
    | none => tlScanLines font mx startx rest (total + line.length + 1)

/-- `Dialog::drawFindSelectionTxtOffset`: resolve the stored mouse position
back to a character offset `_strMouseLoc`; `_str.size()` if nothing hit. -/
def drawFindSelectionTxtOffset (font : FontMetrics) (s : List Char)
    (leftJust : Bool) (st : DialogState) : DialogState :=
  let lastMouseX := st.lastMouseX
  let lastMouseY := st.lastMouseY
  let lineHeight := font.fontHeight
  let wrap := font.wordWrap s st.loc.width
  let lines := wrap.1
  let maxWidth := wrap.2
  let dlgx := if leftJust then
      st.loc.x + Int.tdiv (st.loc.width - maxWidth - 1) 2
    else st.loc.x
  let dlgy := if leftJust then
      st.loc.y + Int.tdiv (st.loc.height - (lines.length : Int) * lineHeight - 1) 2
    else st.loc.y
  let offs := wrappedLineOffsets s lines
  let w1 := tlFindLine lineHeight lastMouseY offs lines 0 0 dlgy
  match tlScanLines font lastMouseX dlgx (lines.drop w1.1) w1.2.1 with
  | some off => { st with strMouseLoc := (off : Int) }
  | none => { st with strMouseLoc := (s.length : Int) }

/-! ## Dialog drawing (`Dialog::draw` and the four frame styles)

Pixel output is recorded as a list of symbolic draw commands; the external
`RequestData` / `Graphics` helpers become command constructors. -/

/-- One emitted drawing command. -/
inductive DrawOp where
  | fillRect (l t r b : Int) (color : Nat)
  | reqFillBackground (x y w h : Int) (color : Nat)
  | corners (n : Nat) (x y w h : Int)
  | header (x y w n : Int) (title : List Char) (color : Nat) (flag : Bool)
  | ellipse (x0 y0 x1 y1 : Int) (color : Nat) (filled : Bool)
  | roundRect (l t r b radius : Int) (color : Nat) (filled : Bool)
  | drawString (line : List Char) (x y w : Int) (color : Nat) (center : Bool)
deriving DecidableEq

/-- `_filledCircle`: a filled ellipse in the background color plus its
outline in the foreground color. -/
def filledCircleOps (x y xr yr : Int) (fg bg : Nat) : List DrawOp :=
  [.ellipse (x - xr) (y - yr) (x + xr) (y + yr) bg true,
   .ellipse (x - xr) (y - yr) (x + xr) (y + yr) fg false]

/-- First index at which `pat` occurs as a contiguous sublist of `s`
(`Common::String::find`). -/
def findSublist (s pat : List Char) : Option Nat :=
  if pat.isPrefixOf s then some 0
  else
    match s with
    | [] => none
    | _ :: t => (findSublist t pat).map (· + 1)

/-- Widest line, starting from 0 (`maxlen = MAX(maxlen, ...)`). -/
def maxStringWidth (font : FontMetrics) : List (List Char) → Int
  | [] => 0
  | l :: rest => max (maxStringWidth font rest) (stringWidth font l)

/-- Per-line loop of `Dialog::drawForeground`: draw each wrapped line, and
re-draw it in the selection color when the highlight interval overlaps the
line's offset interval. -/
def fgLines (x ystart h xwidth : Int) (center : Bool) (fontcol selCol : Nat)
    (lineOffs : List Nat) (hl : Option (Int × Int)) :
    List (List Char) → Nat → List DrawOp
  | [], _ => []
  | l :: rest, i =>
    let base := DrawOp.drawString l x (ystart + (i : Int) * h) xwidth fontcol center
    let hi : List DrawOp :=
      match hl with
      | some p =>
        if p.1 < (lineOffs.getD (i + 1) 0 : Int) ∧ (lineOffs.getD i 0 : Int) < p.2 then
          [DrawOp.drawString l x (ystart + (i : Int) * h) xwidth selCol center]
        else []
      | none => []
    (base :: hi) ++ fgLines x ystart h xwidth center fontcol selCol lineOffs hl rest (i + 1)

/-- `Dialog::drawForeground`: word-wrap `txt` into the content rectangle,
vertically center the block, and emit each line (plus a selection-color
redraw for lines overlapping the selected action's span). -/
def drawForeground (font : FontMetrics) (d : Dialog) (st : DialogState)
    (fontcol : Nat) (txt : List Char) : List DrawOp :=
  let wrap := font.wordWrap txt st.loc.width
  let lines := wrap.1
  let h := font.fontHeight
  let ystart := st.loc.y + Int.tdiv (st.loc.height - (lines.length : Int) * h) 2
  let x := st.loc.x
  let hl : Option (Int × Int) :=
    match st.selectedAction with
    | none => none
    | some i =>
      let a := d.action.getD i ⟨0, 0⟩
      let txtoffset : Int :=
        match findSublist d.str txt with
        | some p => (p : Int)
        | none => -1
      some ((a.strStart : Int) - txtoffset, (a.strEnd : Int) - txtoffset)
  let lineOffs := wrappedLineOffsets txt lines
  let xw :=
    if d.flags.leftJust then
      let maxlen := maxStringWidth font lines
      (x + Int.tdiv (st.loc.width - maxlen) 2, false, maxlen)
    else (x, true, st.loc.width)
  fgLines xw.1 ystart h xw.2.2 xw.2.1 fontcol d.selectonFontCol lineOffs hl lines 0

/-- `Dialog::drawType1` (plain frame). -/
def drawType1 (font : FontMetrics) (d : Dialog) (stage : DialogDrawStage) :
    Dialog × List DrawOp :=
  match d.state with
  | none => (d, [])
  | some st =>
    let x := d.rect.x
    let y := d.rect.y
    let w := d.rect.width
    let h := d.rect.height
    match stage with
    | .background =>
      (d, [.fillRect x y (x + w) (y + h) d.bgColor,
           .fillRect (x + 1) (y + 1) (x + w - 1) (y + h - 1) d.fontColor])
    | .findSelectionPointXY =>
      ({ d with state := some (drawFindSelectionXY font d.str d.flags.leftJust st) }, [])
    | .findSelectionTxtOffset =>
      ({ d with state := some (drawFindSelectionTxtOffset font d.str d.flags.leftJust st) }, [])
    | .foreground =>
      let st := { st with loc := ⟨x + 3, y + 3, w - 6, h - 6⟩ }
      ({ d with state := some st }, drawForeground font d st d.bgColor d.str)

/-- `Dialog::drawType2BackgroundDragon`: content rect and decoration for
the Rise-of-the-Dragon bordered style.  Returns the updated content
rectangle and the emitted commands. -/
def drawType2BackgroundDragon (d : Dialog) (title : List Char) :
    DgdsRect × List DrawOp :=
  let loc0 : DgdsRect := ⟨d.rect.x + 6, d.rect.y + 6, d.rect.width - 12, d.rect.height - 12⟩
  let ops0 : List DrawOp :=
    [.reqFillBackground d.rect.x d.rect.y d.rect.width d.rect.height 0,
     .corners 11 d.rect.x d.rect.y d.rect.width d.rect.height]
  let locTitled :=
    if title ≠ [] then
      (({ loc0 with y := loc0.y + 10, height := loc0.height - 10 } : DgdsRect),
       [DrawOp.header d.rect.x d.rect.y d.rect.width 4 title 0 true])
    else (loc0, [])
  let loc1 := locTitled.1
  let opsFill : List DrawOp :=
    if d.flags.flatBg then
      [.fillRect loc1.x loc1.y (loc1.x + loc1.width) (loc1.y + loc1.height) 0]
    else
      [.reqFillBackground loc1.x loc1.y loc1.width loc1.height 6]
  let opsCorner : List DrawOp :=
    [.corners 19 (loc1.x - 2) (loc1.y - 2) (loc1.width + 4) (loc1.height + 4)]
  ({ loc1 with x := loc1.x + 8, width := loc1.width - 16 },
   ops0 ++ locTitled.2 ++ opsFill ++ opsCorner)

/-- `Dialog::drawType2BackgroundChina`. -/
def drawType2BackgroundChina (d : Dialog) (title : List Char) :
    DgdsRect × List DrawOp :=
  let loc0 : DgdsRect := ⟨d.rect.x + 12, d.rect.y + 10, d.rect.width - 24, d.rect.height - 20⟩
  if title = [] then
    (loc0, [.reqFillBackground d.rect.x d.rect.y d.rect.width d.rect.height 0,
            .corners 1 d.rect.x d.rect.y d.rect.width d.rect.height])
  else
    ({ loc0 with y := loc0.y + 11, height := loc0.height - 11 },
     [.fillRect d.rect.x d.rect.y (d.rect.x + d.rect.width) (d.rect.y + d.rect.height) 0,
      .corners 11 d.rect.x d.rect.y d.rect.width d.rect.height,
      .header d.rect.x d.rect.y d.rect.width 2 title d.fontColor false])

/-- `Dialog::drawType2` (bordered frame with optional colon-delimited
title).  `isDragon` is the process-wide game-variant flag. -/
def drawType2 (font : FontMetrics) (isDragon : Bool) (d : Dialog)
    (stage : DialogDrawStage) : Dialog × List DrawOp :=
  match d.state with
  | none => (d, [])
  | some st =>
    let split :=
      match d.str.findIdx? (· = ':') with
      | some p =>
        let t0 := d.str.drop (p + 1)
        (d.str.take p,
         if t0 ≠ [] ∧ t0.getD 0 (Char.ofNat 0) = '\r' then t0.tail else t0)
      | none => (([] : List Char), d.str)
    let title := split.1
    let txt := split.2
    match stage with
    | .background =>
      let bg := if isDragon then drawType2BackgroundDragon d title
        else drawType2BackgroundChina d title
      ({ d with state := some { st with loc := bg.1 } }, bg.2)
    | .findSelectionPointXY =>
      ({ d with state := some (drawFindSelectionXY font d.str d.flags.leftJust st) }, [])
    | .findSelectionTxtOffset =>
      ({ d with state := some (drawFindSelectionTxtOffset font d.str d.flags.leftJust st) }, [])
    | .foreground =>
      (d, drawForeground font d st d.fontColor txt)

/-- The radius-search loop of `Dialog::drawType3`: try decreasing y radii
(5:4 x:y aspect) keeping the smallest leftover, with an early exit below
radius 20 once a candidate was found.  Carries `(xradius, yradius)`. -/
def t3Loop (usablex usabley : Int) : Nat → Int × Int → Int × Int
  | 0, acc => acc
  | t + 1, acc =>
    let ty : Int := (t : Int) + 1
    let tx := Int.tdiv (ty * 5) 4
    let acc' :=
      if 2 < Int.tdiv usablex tx ∧ 2 < Int.tdiv usabley ty then
        let cand := Int.tmod usablex tx + Int.tmod usabley ty
        if cand < acc.1 then (cand, ty) else acc
      else acc
    if ty < 20 ∧ acc'.1 ≠ 9999 then acc'
    else t3Loop usablex usabley t acc'

/-- A run of tangent circles stepped by `(dx, dy)`; returns the commands
and the final center coordinate (`for (int i = 1; i < count; i++)`). -/
def circleRun (xr yr dx dy : Int) (fg bg : Nat) :
    Nat → Int × Int → List DrawOp × (Int × Int)
  | 0, p => ([], p)
  | k + 1, p =>
    let rest := circleRun xr yr dx dy fg bg k (p.1 + dx, p.2 + dy)
    (filledCircleOps p.1 p.2 xr yr fg bg ++ rest.1, rest.2)

/-- `Dialog::drawType3` background: the ring of circles, the two pointer
circles, the interior fills, and the inscribed content rectangle. -/
def drawType3Background (d : Dialog) (st : DialogState) : Dialog × List DrawOp :=
  let usabley := d.rect.height - 31
  let usablex := d.rect.width - 30
  let found := t3Loop usablex usabley 40 (9999, 40)
  let yradius := found.2
  let xradius := Int.tdiv (yradius * 5) 4
  let circlesAcross := Int.tdiv usablex xradius - 1
  let circlesDown := Int.tdiv usabley yradius - 1
  let x0 := d.rect.x + xradius
  let y0 := d.rect.y + yradius
  let isbig := 160 < d.rect.x + Int.tdiv d.rect.width 2
  let x0 := if isbig then x0 + 30 else x0
  let cols := if d.flags.flatBg then (d.fontColor, d.bgColor) else (0, 15)
  let fg := cols.1
  let bg := cols.2
  let nD := (circlesDown - 1).toNat
  let nA := (circlesAcross - 1).toNat
  let r1 := circleRun xradius yradius 0 yradius fg bg nD (x0, y0)
  let r2 := circleRun xradius yradius xradius 0 fg bg nA r1.2
  let r3 := circleRun xradius yradius 0 (-yradius) fg bg nD r2.2
  let r4 := circleRun xradius yradius (-xradius) 0 fg bg nA r3.2
  let x := r4.2.1
  let y := r4.2.2
  let smalls :=
    if isbig then
      (filledCircleOps (x - xradius - 5) (y + circlesDown * yradius + 5) 10 8 fg bg,
       x - xradius - 20)
    else
      (filledCircleOps (x + circlesAcross * xradius + 5) (y + circlesDown * yradius + 5) 10 8 fg bg,
       x + circlesAcross * xradius + 20)
  let tail := smalls.1 ++ filledCircleOps smalls.2 (y + circlesDown * yradius + 25) 5 4 fg bg
  let yoff := Int.tdiv (yradius * 27) 32
  let fill1 := DrawOp.fillRect x (y - yoff) (x + (circlesAcross - 1) * xradius + 1)
      (y + (circlesDown - 1) * yradius + yoff + 1) bg
  let xoff := Int.tdiv (xradius * 27) 32
  let fill2 := DrawOp.fillRect (x - xoff) y (x + (circlesAcross - 1) * xradius + xoff + 1)
      (y + (circlesDown - 1) * yradius + 1) bg
  let loc : DgdsRect := ⟨x - Int.tdiv xradius 2, y - Int.tdiv yradius 2,
      circlesAcross * xradius, circlesDown * yradius⟩
  ({ d with state := some { st with loc := loc } },
   r1.1 ++ r2.1 ++ r3.1 ++ r4.1 ++ tail ++ [fill1, fill2])

/-- `Dialog::drawType3` (thought-bubble frame). -/
def drawType3 (font : FontMetrics) (d : Dialog) (stage : DialogDrawStage) :
    Dialog × List DrawOp :=
  match d.state with
  | none => (d, [])
  | some st =>
    match stage with
    | .background => drawType3Background d st
    | .findSelectionPointXY =>
      ({ d with state := some (drawFindSelectionXY font d.str d.flags.leftJust st) }, [])
    | .findSelectionTxtOffset =>
      ({ d with state := some (drawFindSelectionTxtOffset font d.str d.flags.leftJust st) }, [])
    | .foreground =>
      (d, drawForeground font d st d.fontColor d.str)

/-- `Dialog::drawType4` (rounded rectangle frame). -/
def drawType4 (font : FontMetrics) (d : Dialog) (stage : DialogDrawStage) :
    Dialog × List DrawOp :=
  match d.state with
  | none => (d, [])
  | some st =>
    let x := d.rect.x
    let y := d.rect.y
    let w := d.rect.width
    let h := d.rect.height
    let midy := Int.tdiv (h - 1) 2
    let cols := if !d.flags.flatBg then ((0 : Nat), (15 : Nat))
      else (d.fontColor, d.bgColor)
    let fillcolor := cols.1
    let fillbgcolor := cols.2
    match stage with
    | .background =>
      (d, [.roundRect x y (x + w) (y + h) midy fillbgcolor true,
           .roundRect x y (x + w) (y + h) midy fillcolor false])
    | .findSelectionPointXY =>
      ({ d with state := some (drawFindSelectionXY font d.str d.flags.leftJust st) }, [])
    | .findSelectionTxtOffset =>
      ({ d with state := some (drawFindSelectionTxtOffset font d.str d.flags.leftJust st) }, [])
    | .foreground =>
      let st := { st with loc := ⟨x + midy, y + 1, w - midy, h - 1⟩ }
      ({ d with state := some st }, drawForeground font d st fillcolor d.str)

/-- `Dialog::draw`: lazily create the `DialogState` if absent, then
dispatch on the frame type; an unknown frame type is the fatal `error()`
branch (`none`). -/
def Dialog.draw (font : FontMetrics) (isDragon : Bool) (d : Dialog)
    (stage : DialogDrawStage) : Option (Dialog × List DrawOp) :=
  let d := if d.state.isNone then { d with state := some freshDialogState } else d
  match d.frameType with
  | 1 => some (drawType1 font d stage)
  | 2 => some (drawType2 font isDragon d stage)
  | 3 => some (drawType3 font d stage)
  | 4 => some (drawType4 font d stage)
  | _ => none

/-! ## `Dialog::updateSelectedAction` and `Dialog::pickAction` -/

/-- The two module-level "last selection" statics shared by all dialogs.
The pointer `_lastDialogSelectionChangedFor` is modelled by an opaque
dialog identity token. -/
structure DialogGlobals where
  lastSelectedDialogItemNum : Int := 0
  lastDialogSelectionChangedFor : Option Nat := none
deriving DecidableEq

/-- The `while (num < 0) num += n` loop, with an explicit fuel bound
(`natAbs` of the start value suffices for any `n ≥ 1`, since each
iteration adds at least 1 while the value is negative). -/
def bringNonnegAux (n : Nat) : Nat → Int → Int
  | 0, i => i
  | fuel + 1, i => if i < 0 then bringNonnegAux n fuel (i + n) else i

/-- Bring a possibly-negative index into range by repeatedly adding the
action count. -/
def bringNonneg (n : Nat) (i : Int) : Int :=
  bringNonnegAux n i.natAbs i

/-- The index-wrap step of `updateSelectedAction`: repeated addition until
non-negative, then C++ `%`. -/
def wrapIdx (i : Int) (n : Nat) : Int :=
  Int.tmod (bringNonneg n i) (n : Int)

/-- `Dialog::updateSelectedAction(delta)`.  `thisId` is this dialog's
identity token; the result is the updated dialog and shared statics plus
the `warpMouse` target, if any; `none` is the fatal unknown-frame-type
path inside the nested `draw` call. -/
def updateSelectedAction (font : FontMetrics) (isDragon : Bool) (thisId : Nat)
    (delta : Int) (d : Dialog) (g : DialogGlobals) :
    Option (Dialog × DialogGlobals × Option (Int × Int)) :=
  let g :=
    match g.lastDialogSelectionChangedFor with
    | none => { g with lastDialogSelectionChangedFor := some thisId }
    | some _ => { g with lastSelectedDialogItemNum := 0 }
  match d.state with
  | none => some (d, g, none)
  | some st =>
    let g :=
      match st.selectedAction with
      | some a =>
        if a < d.action.length then { g with lastSelectedDialogItemNum := (a : Int) }
        else g
      | none => g
    let g := { g with lastSelectedDialogItemNum := g.lastSelectedDialogItemNum + delta }
    let g :=
      if d.action.isEmpty then g
      else { g with lastSelectedDialogItemNum :=
                      wrapIdx g.lastSelectedDialogItemNum d.action.length }
    let g := { g with lastDialogSelectionChangedFor := some thisId }
    let mouseX := st.loc.x + st.loc.width
    let mouseY := st.loc.y + st.loc.height - 2
    if 1 < d.action.length then
      let a := d.action.getD g.lastSelectedDialogItemNum.toNat ⟨0, 0⟩
      let d := { d with state := some { st with strMouseLoc := (a.strStart : Int) } }
      match Dialog.draw font isDragon d .findSelectionPointXY with
      | none => none
      | some dr =>
        let d := dr.1
        let st := d.state.getD freshDialogState
        some (d, g, some (mouseX, st.lastMouseY + Int.tdiv st.charHeight 2))
    else
      some (d, g, if delta = 0 then some (mouseX, mouseY) else none)

/-- The action-scanning loop of `pickAction`: first action whose span
contains the offset, or whose end the offset passes by exactly one on a
carriage-return boundary. -/
def findActionIdx (s : List Char) (underMouse : Char) (loc : Int) :
    List DialogAction → Nat → Option Nat
  | [], _ => none
  | a :: rest, i =>
    if ((a.strStart : Int) ≤ loc ∧ loc ≤ (a.strEnd : Int)) ∨
       (loc = (a.strEnd : Int) + 1 ∧ underMouse = '\r' ∧
        s.getD a.strEnd (Char.ofNat 0) ≠ '\r') then some i
    else findActionIdx s underMouse loc rest (i + 1)

/-- `Dialog::pickAction(isClosing, isForceClose)`.  `r` is the value the
engine RNG returned for `getRandomNumber(_action.size() - 1)`; `(mx, my)`
is the engine's last mouse position.  `none` models the fatal paths
(`assert(_state)`, unknown frame type); otherwise the chosen action is
returned as an index. -/
def pickAction (font : FontMetrics) (isDragon : Bool) (r : Nat) (mx my : Int)
    (isClosing isForceClose : Bool) (d : Dialog) : Option (Dialog × Option Nat) :=
  if !isForceClose && isClosing then
    if d.action.isEmpty then some (d, none) else some (d, some r)
  else
    match d.state with
    | none => none
    | some st =>
      let fallback : Dialog → Option (Dialog × Option Nat) := fun d' =>
        if isClosing ∧ d'.action.length = 1 then some (d', some 0) else some (d', none)
      if st.loc.x ≤ mx ∧ mx ≤ st.loc.x + st.loc.width ∧
         st.loc.y ≤ my ∧ my ≤ st.loc.y + st.loc.height then
        let d := { d with state := some { st with lastMouseX := mx, lastMouseY := my } }
        match Dialog.draw font isDragon d .findSelectionTxtOffset with
        | none => none
        | some dr =>
          let d := dr.1
          let st := d.state.getD freshDialogState
          let underMouse :=
            if 0 ≤ st.strMouseLoc ∧ st.strMouseLoc < (d.str.length : Int) then
              d.str.getD st.strMouseLoc.toNat (Char.ofNat 0)
            else Char.ofNat 0
          match findActionIdx d.str underMouse st.strMouseLoc d.action 0 with
          | some i => some (d, some i)
          | none => fallback d
      else fallback d

/-! ## Engine state, `DgdsEngine::changeScene`, `DgdsEngine::syncGame`

Collaborator subsystems (scene object internals, GDS scene, sound, ADS
interpreter, palettes) are opaque: their state is a type parameter `R` and
their operations are fields of `Env`.  Screen buffers are a type parameter
`B`; subsystem `syncState` errors are a type parameter `E`. -/

/-- Warnings reported by `changeScene` (non-fatal failure reports). -/
inductive Warn where
  | selfScene (n : Nat)
  | missingScene (n : Nat)
deriving DecidableEq

/-- The engine fields touched by `changeScene` / `syncGame`.  `rest` is the
opaque collaborator state. -/
structure EngineSt (R B : Type) where
  sceneNum : Nat
  invOpen : Bool
  invOpenedFrom : Nat
  invShowZoomBox : Bool
  invHighlightItemNo : Int
  dragItem : Option Nat
  backgroundFile : String
  textSpeed : Int
  justChangedScene1 : Bool
  justChangedScene2 : Bool
  lastSceneNumGlobal : Nat
  global61 : Nat
  clockVisibleScript : Bool
  currentCursor : Int
  playTime : Nat
  bgBuffer : B
  storedBuffer : B
  compBuffer : B
  rest : R
deriving DecidableEq

/-- The external collaborator operations used by `changeScene` and
`syncGame` (resource loader, scene directory ops, sound, ADS interpreter,
palettes, per-subsystem serializers). -/
structure Env (R B E : Type) where
  hasResource : Nat → Bool
  runLeaveSceneOps : R → R
  runChangeSceneOps : R → R
  runEnterSceneOps : R → R
  sceneUnload : R → R
  sceneLoad : Nat → R → R
  addInvButton : R → R
  sceneMagic : R → Nat
  gdsMagic : Nat
  sceneAdsFile : R → Option String
  adsLoad : String → R → R
  adsUnload : R → R
  unloadMusic : R → R
  stopAllSfx : R → R
  menuHide : R → R
  gameIsDragon : Bool
  iconsFrames : Nat
  cursorsLen : Nat
  clearedBuf : B
  bgDrawScreen : String → B → B
  gdsSceneSync : R → R × Option E
  sceneSync : R → R × Option E
  globalsSync : R → R × Option E
  clockSync : R → R × Option E
  inventorySync : R → R × Option E
  palsSync : R → R × Option E
  adsSync : R → R × Option E
  palsReset : R → R

/-- `DgdsEngine::setMouseCursor(0)`: skipped when no icons are loaded or
the cursor is already 0; fatal (`none`) when the cursor-hotspot list is
empty. -/
def setMouseCursor0 {R B E : Type} (env : Env R B E) (st : EngineSt R B) :
    Option (EngineSt R B) :=
  if env.iconsFrames = 0 then some st
  else if st.currentCursor = 0 then some st
  else if env.cursorsLen = 0 then none
  else some { st with currentCursor := 0 }

/-- `DgdsEngine::changeScene(sceneNum)`, with `Inventory::close()` inlined
(it calls back into `changeScene`, hence the fuel; `none` is either fuel
exhaustion or a fatal `error()`/failed assertion).  Returns the new state,
the boolean result, and the warnings reported. -/
def changeSceneF {R B E : Type} : Nat → Env R B E → EngineSt R B → Nat →
    Option (EngineSt R B × Bool × List Warn)
  | 0, _, _, _ => none
  | fuel + 1, env, st, target =>
    if target = st.sceneNum then some (st, false, [.selfScene target])
    else
      -- not going to or from the inventory scene with the inventory open:
      -- close it (Inventory::close, inventory.cpp) and clear the drag item.
      let closeStep : Option (EngineSt R B × List Warn) :=
        if target ≠ 2 ∧ st.sceneNum ≠ 2 ∧ st.invOpen then
          if st.invOpenedFrom = 0 then none  -- assert(_openedFromSceneNum != 0)
          else
            let st1 := { st with invOpen := false }
            match changeSceneF fuel env st1 st1.invOpenedFrom with
            | none => none
            | some p =>
              some ({ p.1 with invShowZoomBox := false, invOpenedFrom := 0,
                               invHighlightItemNo := -1, dragItem := none },
                    p.2.2)
        else some (st, [])
      match closeStep with
      | none => none
      | some q =>
        let st := q.1
        let warns := q.2
        if env.hasResource target = false then
          some (st, false, warns ++ [.missingScene target])
        else
          let st := { st with lastSceneNumGlobal := target }
          let st :=
            if target = 2 then { st with bgBuffer := st.compBuffer }
            else { st with bgBuffer := env.clearedBuf }
          let st := { st with rest := env.runLeaveSceneOps st.rest }
          let st := if st.sceneNum ≠ 2 then { st with global61 := st.sceneNum } else st
          let st := { st with sceneNum := 0, rest := env.sceneUnload st.rest }
          let st := { st with backgroundFile := "" }
          let st := { st with rest := env.stopAllSfx (env.unloadMusic st.rest) }
          let st := { st with rest := env.runChangeSceneOps st.rest }
          match (if st.dragItem = none then setMouseCursor0 env st else some st) with
          | none => none
          | some st =>
            let st := { st with storedBuffer := env.clearedBuf }
            let st := { st with sceneNum := target,
                                rest := env.addInvButton (env.sceneLoad target st.rest) }
            let st := if env.gameIsDragon then { st with clockVisibleScript := true } else st
            if env.sceneMagic st.rest ≠ env.gdsMagic then none
            else
              let st :=
                match env.sceneAdsFile st.rest with
                | some f => { st with rest := env.adsLoad f st.rest }
                | none => { st with rest := env.adsUnload st.rest }
              let st := { st with rest := env.runEnterSceneOps st.rest }
              some ({ st with justChangedScene1 := true, justChangedScene2 := true },
                    true, warns)

/-! ## `DgdsEngine::syncGame` -/

/-- The serializer (`Common::Serializer`), reduced to the mode flag, the
version negotiation, and the values a load supplies.  When saving, the
written version is 4 and the `load*` fields are unused. -/
structure Ser where
  isLoading : Bool
  version : Nat
  loadSceneNum : Nat := 0
  loadTextSpeed : Int := 0
  loadJust1 : Bool := false
  loadJust2 : Bool := false
  loadPlayTime : Nat := 0
  loadBgFile : String := ""

/-- The synchronization steps `syncGame` performs, in the order they are
logged. -/
inductive SyncStep where
  | sceneDir
  | sceneNum
  | sceneState
  | globals
  | clock
  | inventory
  | palette
  | paletteReset
  | ads
  | textSpeed
  | flags
  | playTime
  | bgFile
  | enterOps
deriving DecidableEq

/-- Run a list of subsystem `syncState` calls in order, stopping at the
first reported error and returning it unchanged. -/
def runSyncs {R E : Type} : List ((R → R × Option E) × SyncStep) → R →
    List SyncStep → R × Option E × List SyncStep
  | [], r, log => (r, none, log)
  | (f, lbl) :: rest, r, log =>
    let p := f r
    match p.2 with
    | some e => (p.1, some e, log ++ [lbl])
    | none => runSyncs rest p.1 (log ++ [lbl])

/-- The trailing scalar syncs of `syncGame` (text speed, the two
just-changed-scene flags, play time, background file plus its load-time
redraw) followed by the re-run of the scene's enter ops. -/
def syncTail {R B E : Type} (env : Env R B E) (ser : Ser) (st : EngineSt R B)
    (log : List SyncStep) : EngineSt R B × Option E × List SyncStep :=
  let st := if ser.isLoading then { st with textSpeed := ser.loadTextSpeed } else st
  let st :=
    if ser.isLoading then
      { st with justChangedScene1 := ser.loadJust1, justChangedScene2 := ser.loadJust2 }
    else st
  let st := if ser.isLoading then { st with playTime := ser.loadPlayTime } else st
  let st :=
    if ser.isLoading then
      { st with backgroundFile := ser.loadBgFile,
                bgBuffer := env.bgDrawScreen ser.loadBgFile st.bgBuffer,
                storedBuffer := env.clearedBuf }
    else st
  let st := { st with rest := env.runEnterSceneOps st.rest }
  (st, none, log ++ [.textSpeed, .flags, .playTime, .bgFile, .enterOps])

/-- `DgdsEngine::syncGame`: hide the menu, negotiate the format version
(fatal if a load is newer than 4), then synchronize every subsystem in the
fixed order, short-circuiting to the first reported error.  `none` models
the fatal `error()` calls; otherwise the result carries the final state,
the propagated subsystem error (if any), and the ordered step log. -/
def syncGame {R B E : Type} (env : Env R B E) (ser : Ser) (st0 : EngineSt R B) :
    Option (EngineSt R B × Option E × List SyncStep) :=
  let st := { st0 with rest := env.menuHide st0.rest }
  if ser.isLoading ∧ 4 < ser.version then none
  else
    let v : Nat := if ser.isLoading then ser.version else 4
    let p1 := env.gdsSceneSync st.rest
    match p1.2 with
    | some e => some ({ st with rest := p1.1 }, some e, [.sceneDir])
    | none =>
      let st := { st with rest := p1.1 }
      -- current scene number; on load, re-create the scene before syncing on
      let afterScene : Option (EngineSt R B) :=
        if ser.isLoading then
          if env.hasResource ser.loadSceneNum = false then none
          else
            let r := env.sceneUnload (env.stopAllSfx (env.unloadMusic st.rest))
            let r := env.adsUnload r
            let r := env.addInvButton (env.sceneLoad ser.loadSceneNum r)
            some { st with sceneNum := ser.loadSceneNum, rest := r }
        else some st
      match afterScene with
      | none => none
      | some st =>
        let mid := runSyncs
          [(env.sceneSync, .sceneState), (env.globalsSync, .globals),
           (env.clockSync, .clock), (env.inventorySync, .inventory)]
          st.rest [.sceneDir, .sceneNum]
        match mid.2.1 with
        | some e => some ({ st with rest := mid.1 }, some e, mid.2.2)
        | none =>
          let st := { st with rest := mid.1 }
          let log := mid.2.2
          -- palette block only for old versions; newer loads reset instead
          let pals : (EngineSt R B × List SyncStep) ⊕ (EngineSt R B × Option E × List SyncStep) :=
            if v < 4 then
              let pp := env.palsSync st.rest
              match pp.2 with
              | some e => Sum.inr ({ st with rest := pp.1 }, some e, log ++ [.palette])
              | none => Sum.inl ({ st with rest := pp.1 }, log ++ [.palette])
            else if ser.isLoading then
              Sum.inl ({ st with rest := env.palsReset st.rest }, log ++ [.paletteReset])
            else Sum.inl (st, log)
          match pals with
          | Sum.inr out => some out
          | Sum.inl q =>
            let st := q.1
            let log := q.2
            let pa := env.adsSync st.rest
            match pa.2 with
            | some e => some ({ st with rest := pa.1 }, some e, log ++ [.ads])
            | none =>
              some (syncTail env ser { st with rest := pa.1 } (log ++ [.ads]))

/-- The order of synchronization steps when every subsystem succeeds, as a
function of the mode and negotiated version. -/
def expectedSyncOrder (loading : Bool) (v : Nat) : List SyncStep :=
  [.sceneDir, .sceneNum, .sceneState, .globals, .clock, .inventory]
  ++ (if v < 4 then [.palette] else if loading then [.paletteReset] else [])
  ++ [.ads, .textSpeed, .flags, .playTime, .bgFile, .enterOps]

/-! ## Specification-side definitions

Reference definitions written from the specification's own wording, to be
compared against the embedded code. -/

/-- Spec wording: within one line, the first character at which "the
cumulative width meets or exceeds the target x" (the cumulative width of
characters up to and including that one, measured from the line's left
edge `startx`). -/
def specCharHit (font : FontMetrics) (mx startx : Int) (line : List Char) :
    Option Nat :=
  (List.range line.length).find?
    (fun c => decide (mx ≤ startx + stringWidth font (line.take (c + 1))))

/-- Scan the located line and (amended) every subsequent line, the x
accumulator reset to the line start, counting `length + 1` original-string
characters per passed line. -/
def specScanFrom (font : FontMetrics) (mx startx : Int) :
    List (List Char) → Nat → Option Nat
  | [], _ => none
  | line :: rest, total =>
    match specCharHit font mx startx line with
    | some c => some (total + c)
    | none => specScanFrom font mx startx rest (total + line.length + 1)

/-- Spec wording: the number of lines walked "while the line's bottom edge
is above the target y" (line `i` has bottom edge `dlgy0 + (i+1)·lineHeight`). -/
def specLocateCount (lh my dlgy0 : Int) (n : Nat) : Nat :=
  ((List.range n).takeWhile (fun i : Nat => decide (dlgy0 + ((i : Int) + 1) * lh < my))).length

/-- The screen-position-to-offset resolution, composed from the
specification's wording: locate the line by bottom edge, then scan
characters by cumulative width from that line on, returning the offset as
an index into the original unwrapped string, or the string length if no
character matches. -/
def specTxtOffset (font : FontMetrics) (s : List Char) (leftJust : Bool)
    (st : DialogState) : Int :=
  let wrap := font.wordWrap s st.loc.width
  let lines := wrap.1
  let lh := font.fontHeight
  let dlgx := if leftJust then st.loc.x + Int.tdiv (st.loc.width - wrap.2 - 1) 2
    else st.loc.x
  let dlgy := if leftJust then
      st.loc.y + Int.tdiv (st.loc.height - (lines.length : Int) * lh - 1) 2
    else st.loc.y
  let k := specLocateCount lh st.lastMouseY dlgy lines.length
  match specScanFrom font st.lastMouseX dlgx (lines.drop k) (chainOff lines k) with
  | some off => (off : Int)
  | none => (s.length : Int)

/-- The claim's literal reading of `drawFindSelectionTxtOffset`: scan only
the located line; if no character there matches, return the string length
sentinel immediately. -/
def txtOffsetLocatedLineOnly (font : FontMetrics) (s : List Char)
    (leftJust : Bool) (st : DialogState) : Int :=
  let wrap := font.wordWrap s st.loc.width
  let lines := wrap.1
  let lh := font.fontHeight
  let dlgx := if leftJust then st.loc.x + Int.tdiv (st.loc.width - wrap.2 - 1) 2
    else st.loc.x
  let dlgy := if leftJust then
      st.loc.y + Int.tdiv (st.loc.height - (lines.length : Int) * lh - 1) 2
    else st.loc.y
  let k := specLocateCount lh st.lastMouseY dlgy lines.length
  match lines.getD k [] with
  | [] => (s.length : Int)
  | line =>
    match specCharHit font st.lastMouseX dlgx line with
    | some c => ((chainOff lines k + c : Nat) : Int)
    | none => (s.length : Int)

/-- The claim's action-selection rule as a first-index search: the span
contains the offset, or the offset is exactly one past the span's end on a
carriage-return boundary. -/
def specFindActionIdx (s : List Char) (underMouse : Char) (loc : Int)
    (actions : List DialogAction) : Option Nat :=
  actions.findIdx? fun a =>
    decide (((a.strStart : Int) ≤ loc ∧ loc ≤ (a.strEnd : Int)) ∨
      (loc = (a.strEnd : Int) + 1 ∧ underMouse = '\r' ∧
       s.getD a.strEnd (Char.ofNat 0) ≠ '\r'))

/-- Total consumed length of the offset chain over all lines. -/
def chainTotal (lines : List (List Char)) : Nat :=
  chainOff lines lines.length

/-- The wrapped-lines contract assumed by the layout code (see the comment
above `_wrappedLineOffsets`): wrapping breaks on a space or CR, each line
being the original substring at its chain offset, the final line ending
exactly at the string's end; lines are non-empty. -/
structure WrapOk (s : List Char) (lines : List (List Char)) : Prop where
  nonnil : lines ≠ []
  linesNonempty : ∀ i, i < lines.length → (lines.getD i []) ≠ []
  total : chainOff lines (lines.length - 1) +
    (lines.getD (lines.length - 1) []).length = s.length
  chars : ∀ i, i < lines.length → ∀ j, j < (lines.getD i []).length →
    (lines.getD i []).getD j (Char.ofNat 0) = s.getD (chainOff lines i + j) (Char.ofNat 0)

/-- The `DialogState` `pickAction` hands to the `findSelectionTxtOffset`
draw pass: the stored state with the mouse position refreshed. -/
def pickResolvedSt (font : FontMetrics) (d : Dialog) (st : DialogState)
    (mx my : Int) : DialogState :=
  drawFindSelectionTxtOffset font d.str d.flags.leftJust
    { st with lastMouseX := mx, lastMouseY := my }

/-- The character `pickAction` reads at the resolved offset (NUL when the
offset is out of range). -/
def pickUnderChar (s : List Char) (off : Int) : Char :=
  if 0 ≤ off ∧ off < (s.length : Int) then s.getD off.toNat (Char.ofNat 0)
  else Char.ofNat 0

/-! ## Concrete instances used by the witnesses and counterexamples -/

/-- A minimal font: every glyph 1 pixel wide, line height 1, no wrapping
(the whole string becomes one line). -/
def font1 : FontMetrics :=
  { charWidth := fun _ => 1, maxCharWidth := 1, fontHeight := 1,
    wordWrap := fun s _ => ([s], 0) }

/-- A font that wraps `"ab cdef"` into the two lines `ab` / `cdef`. -/
def font2 : FontMetrics :=
  { charWidth := fun _ => 1, maxCharWidth := 1, fontHeight := 1,
    wordWrap := fun _ _ => ([['a','b'],['c','d','e','f']], 0) }

/-- Dialog state for the layout round trip: a 100x100 text area at the
origin, current offset 1. -/
def c1st : DialogState := { loc := ⟨0, 0, 100, 100⟩, strMouseLoc := 1 }

/-- Dialog state for the offset resolution: mouse at (4, 1), past the end
of the first wrapped line. -/
def c8st : DialogState := { loc := ⟨0, 0, 50, 50⟩, lastMouseX := 4, lastMouseY := 1 }

/-- The two-action menu dialog of the specification's selection scenario
(`"Pick a direction.\rGo north\rGo south"`, spans 19-26 and 28-35). -/
def c6dlg : Dialog :=
  { frameType := 1, str := "Pick a direction.\rGo north\rGo south".toList,
    action := [⟨19, 26⟩, ⟨28, 35⟩],
    state := some { loc := ⟨10, 10, 200, 100⟩ } }

/-- The first `updateSelectedAction(1)` call on `c6dlg` from the unselected
state. -/
def c6run1 : Option (Dialog × DialogGlobals × Option (Int × Int)) :=
  updateSelectedAction font1 false 1 1 c6dlg {}

/-- The second `updateSelectedAction(1)` call, continuing from the first. -/
def c6run2 : Option (Dialog × DialogGlobals × Option (Int × Int)) :=
  c6run1.bind fun t => updateSelectedAction font1 false 1 1 t.1 t.2.1

/-- The third `updateSelectedAction(1)` call, continuing from the second. -/
def c6run3 : Option (Dialog × DialogGlobals × Option (Int × Int)) :=
  c6run2.bind fun t => updateSelectedAction font1 false 1 1 t.1 t.2.1

/-- The menu dialog with action 0 recorded as the current selection. -/
def c5dlg : Dialog :=
  { c6dlg with state := some { loc := ⟨10, 10, 200, 100⟩, selectedAction := some 0 } }

/-- First `updateSelectedAction(1)` call on `c5dlg`. -/
def c5run1 : Option (Dialog × DialogGlobals × Option (Int × Int)) :=
  updateSelectedAction font1 false 1 1 c5dlg {}

/-- Second `updateSelectedAction(1)` call on `c5dlg` (n = 2 calls total). -/
def c5run2 : Option (Dialog × DialogGlobals × Option (Int × Int)) :=
  c5run1.bind fun t => updateSelectedAction font1 false 1 1 t.1 t.2.1

/-- A two-action closing dialog for the `pickAction` cases. -/
def c7dlg : Dialog :=
  { frameType := 1, str := "Yes\rNo".toList, action := [⟨0, 2⟩, ⟨4, 5⟩],
    state := some { loc := ⟨0, 0, 20, 10⟩ } }

/-- A single-action dialog for the closing special case. -/
def c7one : Dialog :=
  { frameType := 1, str := "Ok".toList, action := [⟨0, 1⟩],
    state := some { loc := ⟨0, 0, 20, 10⟩ } }

/-- A stateless dialog (no `DialogState` yet). -/
def c9dlg : Dialog :=
  { frameType := 1, rect := ⟨0, 0, 40, 20⟩, str := "Hi".toList, state := none }

/-- An empty-action dialog with a `DialogState`. -/
def c10dlg : Dialog :=
  { frameType := 1, str := [], action := [], state := some {} }

/-- An engine environment over trivial collaborator state in which no scene
resource exists; used by the scene-transition counterexample. -/
def env0 : Env Unit Unit Unit :=
  { hasResource := fun _ => false,
    runLeaveSceneOps := id, runChangeSceneOps := id, runEnterSceneOps := id,
    sceneUnload := id, sceneLoad := fun _ => id, addInvButton := id,
    sceneMagic := fun _ => 0, gdsMagic := 0, sceneAdsFile := fun _ => none,
    adsLoad := fun _ => id, adsUnload := id, unloadMusic := id, stopAllSfx := id,
    menuHide := id, gameIsDragon := false, iconsFrames := 0, cursorsLen := 0,
    clearedBuf := (), bgDrawScreen := fun _ => id,
    gdsSceneSync := fun r => (r, none), sceneSync := fun r => (r, none),
    globalsSync := fun r => (r, none), clockSync := fun r => (r, none),
    inventorySync := fun r => (r, none), palsSync := fun r => (r, none),
    adsSync := fun r => (r, none), palsReset := id }

/-- Engine state in scene 5 with the inventory open (opened from scene 5)
and an item being dragged. -/
def st0 : EngineSt Unit Unit :=
  { sceneNum := 5, invOpen := true, invOpenedFrom := 5, invShowZoomBox := true,
    invHighlightItemNo := 2, dragItem := some 1, backgroundFile := "x",
    textSpeed := 1, justChangedScene1 := false, justChangedScene2 := false,
    lastSceneNumGlobal := 0, global61 := 0, clockVisibleScript := false,
    currentCursor := 0, playTime := 0, bgBuffer := (), storedBuffer := (),
    compBuffer := (), rest := () }

/-- A quiescent engine state over trivial collaborator state. -/
def stU : EngineSt Unit Unit :=
  { sceneNum := 1, invOpen := false, invOpenedFrom := 0, invShowZoomBox := false,
    invHighlightItemNo := 0, dragItem := none, backgroundFile := "",
    textSpeed := 0, justChangedScene1 := false, justChangedScene2 := false,
    lastSceneNumGlobal := 0, global61 := 0, clockVisibleScript := false,
    currentCursor := 0, playTime := 0, bgBuffer := (), storedBuffer := (),
    compBuffer := (), rest := () }

/-- A subsystem serializer that succeeds. -/
def okSync : Unit → Unit × Option Nat := fun r => (r, none)

/-- A subsystem serializer that reports error 7. -/
def errSync : Unit → Unit × Option Nat := fun r => (r, some 7)

/-- An engine environment over trivial collaborator state with every scene
resource present, parameterized by the seven subsystem serializers. -/
def mkSyncEnv (g s gl c i p a : Unit → Unit × Option Nat) : Env Unit Unit Nat :=
  { hasResource := fun _ => true,
    runLeaveSceneOps := id, runChangeSceneOps := id, runEnterSceneOps := id,
    sceneUnload := id, sceneLoad := fun _ => id, addInvButton := id,
    sceneMagic := fun _ => 0, gdsMagic := 0, sceneAdsFile := fun _ => none,
    adsLoad := fun _ => id, adsUnload := id, unloadMusic := id, stopAllSfx := id,
    menuHide := id, gameIsDragon := false, iconsFrames := 0, cursorsLen := 0,
    clearedBuf := (), bgDrawScreen := fun _ => id,
    gdsSceneSync := g, sceneSync := s, globalsSync := gl, clockSync := c,
    inventorySync := i, palsSync := p, adsSync := a, palsReset := id }

/-- Environment with every subsystem serializer succeeding. -/
def envOk : Env Unit Unit Nat :=
  mkSyncEnv okSync okSync okSync okSync okSync okSync okSync

/-- Environment whose GDS scene-directory serializer fails. -/
def envEgds : Env Unit Unit Nat :=
  mkSyncEnv errSync okSync okSync okSync okSync okSync okSync

/-- Environment whose scene-state serializer fails. -/
def envEscene : Env Unit Unit Nat :=
  mkSyncEnv okSync errSync okSync okSync okSync okSync okSync

/-- Environment whose globals serializer fails. -/
def envEglob : Env Unit Unit Nat :=
  mkSyncEnv okSync okSync errSync okSync okSync okSync okSync

/-- Environment whose clock serializer fails. -/
def envEclock : Env Unit Unit Nat :=
  mkSyncEnv okSync okSync okSync errSync okSync okSync okSync

/-- Environment whose inventory serializer fails. -/
def envEinv : Env Unit Unit Nat :=
  mkSyncEnv okSync okSync okSync okSync errSync okSync okSync

/-- Environment whose legacy-palette serializer fails. -/
def envEpals : Env Unit Unit Nat :=
  mkSyncEnv okSync okSync okSync okSync okSync errSync okSync

/-- Environment whose script-overlay (ADS) serializer fails. -/
def envEads : Env Unit Unit Nat :=
  mkSyncEnv okSync okSync okSync okSync okSync okSync errSync

/-- A save-mode serializer (writes version 4). -/
def serSave : Ser := { isLoading := false, version := 4 }

/-- A load of a version-3 save targeting scene 1. -/
def serLoad3 : Ser := { isLoading := true, version := 3, loadSceneNum := 1 }

/-- A load of a version-4 save targeting scene 1. -/
def serLoad4 : Ser := { isLoading := true, version := 4, loadSceneNum := 1 }

/-- A load of an unsupported version-5 save. -/
def serLoad5 : Ser := { isLoading := true, version := 5, loadSceneNum := 1 }

/-! ## Helper lemmas: offset chains -/

theorem chainOff_zero (lines : List (List Char)) : chainOff lines 0 = 0 := by
  cases lines <;> rfl

theorem chainOff_succ : ∀ (lines : List (List Char)) (k : Nat), k < lines.length →
    chainOff lines (k + 1) = chainOff lines k + (lines.getD k []).length + 1 := by
  intro lines
  induction lines with
  | nil => intro k h; simp at h
  | cons l rest ih =>
    intro k h
    cases k with
    | zero => simp [chainOff]
    | succ k =>
      have hk : k < rest.length := by simpa using h
      simp only [chainOff, ih k hk, List.getD_cons_succ]
      omega

theorem chainOff_mono : ∀ (lines : List (List Char)) (k k' : Nat), k ≤ k' →
    chainOff lines k ≤ chainOff lines k' := by
  intro lines
  induction lines with
  | nil =>
    intro k k' _
    cases k <;> cases k' <;> simp [chainOff]
  | cons l rest ih =>
    intro k k' hkk
    cases k with
    | zero => simp [chainOff_zero]
    | succ k =>
      cases k' with
      | zero => omega
      | succ k' =>
        have := ih k k' (by omega)
        simp only [chainOff]
        omega

theorem wloAux_getD : ∀ (lines : List (List Char)) (slen off j : Nat),
    j < lines.length → (wloAux slen lines off).getD j 0 = off + chainOff lines j := by
  intro lines
  induction lines with
  | nil => intro _ _ j h; simp at h
  | cons l rest ih =>
    intro slen off j h
    cases j with
    | zero => simp [wloAux, chainOff]
    | succ j =>
      have hj : j < rest.length := by simpa using h
      simp only [wloAux, List.getD_cons_succ, ih slen (off + l.length + 1) j hj, chainOff]
      omega

theorem wloAux_getD_len : ∀ (lines : List (List Char)) (slen off : Nat),
    (wloAux slen lines off).getD lines.length 0 = slen := by
  intro lines
  induction lines with
  | nil => intro slen off; simp [wloAux]
  | cons l rest ih => intro slen off; simpa [wloAux] using ih slen (off + l.length + 1)

theorem wrappedLineOffsets_getD (s : List Char) (lines : List (List Char)) (j : Nat)
    (h : j < lines.length) :
    (wrappedLineOffsets s lines).getD j 0 = chainOff lines j := by
  simpa [wrappedLineOffsets] using wloAux_getD lines s.length 0 j h

theorem wrappedLineOffsets_getD_len (s : List Char) (lines : List (List Char)) :
    (wrappedLineOffsets s lines).getD lines.length 0 = s.length := by
  simpa [wrappedLineOffsets] using wloAux_getD_len lines s.length 0

/-! ## Helper lemmas: the character scan -/

theorem tlScanChars_eq_spec (font : FontMetrics) (mx : Int) :
    ∀ (l : List Char) (d : Int) (k : Nat),
      tlScanChars font mx l d k = (specCharHit font mx d l).map (fun c => k + c) := by
  intro l
  induction l with
  | nil => intro d k; simp [tlScanChars, specCharHit]
  | cons c rest ih =>
    intro d k
    simp only [tlScanChars, specCharHit, List.length_cons, List.range_succ_eq_map,
      List.find?_cons]
    by_cases h : mx ≤ d + font.charWidth c.toNat
    · simp [h, stringWidth]
    · have hd : (decide (mx ≤ d + stringWidth font (List.take (0 + 1) (c :: rest)))) = false := by
        simp [stringWidth, h]
      rw [if_neg h]
      simp only [hd, Bool.false_eq_true, if_false]
      rw [List.find?_map]
      have heq : ((fun c' => decide (mx ≤ d + stringWidth font (List.take (c' + 1) (c :: rest)))) ∘
          (· + 1)) = (fun c' => decide (mx ≤ d + font.charWidth c.toNat +
            stringWidth font (List.take (c' + 1) rest))) := by
        funext i
        simp only [Function.comp_apply, List.take_succ_cons, stringWidth]
        apply decide_eq_decide.mpr
        omega
      rw [heq, ih (d + font.charWidth c.toNat) (k + 1)]
      rw [show specCharHit font mx (d + font.charWidth c.toNat) rest =
        (List.range rest.length).find? (fun c' => decide (mx ≤ d + font.charWidth c.toNat +
          stringWidth font (List.take (c' + 1) rest))) from rfl]
      cases (List.range rest.length).find? (fun c' => decide (mx ≤ d + font.charWidth c.toNat +
          stringWidth font (List.take (c' + 1) rest))) with
      | none => simp
      | some v => simp; omega

theorem tlScanLines_eq_spec (font : FontMetrics) (mx startx : Int) :
    ∀ (ls : List (List Char)) (total : Nat),
      tlScanLines font mx startx ls total = specScanFrom font mx startx ls total := by
  intro ls
  induction ls with
  | nil => intro total; rfl
  | cons line rest ih =>
    intro total
    simp only [tlScanLines, specScanFrom, tlScanChars_eq_spec font mx line startx 0]
    cases specCharHit font mx startx line with
    | none => simp [ih]
    | some c => simp

/-! ## Helper lemmas: the line-locating walk -/

theorem takeWhile_range_succ_length (p : Nat → Bool) (n : Nat) :
    ((List.range (n + 1)).takeWhile p).length =
      if p 0 then 1 + ((List.range n).takeWhile (fun i => p (i + 1))).length else 0 := by
  rw [List.range_succ_eq_map, List.takeWhile_cons]
  by_cases h : p 0
  · rw [if_pos h, if_pos h]
    rw [List.takeWhile_map, List.length_cons, List.length_map]
    simp [Function.comp_def]
    omega
  · rw [if_neg h, if_neg h]
    rfl

theorem specLocateCount_succ (lh my dlgy : Int) (n : Nat) :
    specLocateCount lh my dlgy (n + 1) =
      if dlgy + lh < my then 1 + specLocateCount lh my (dlgy + lh) n else 0 := by
  unfold specLocateCount
  rw [takeWhile_range_succ_length]
  simp only [Nat.cast_zero, zero_add, one_mul, Nat.cast_add, Nat.cast_one,
    decide_eq_true_eq]
  have heq : (fun i : Nat => decide (dlgy + ((i : Int) + 1 + 1) * lh < my)) =
      (fun i : Nat => decide (dlgy + lh + ((i : Int) + 1) * lh < my)) := by
    funext i
    apply decide_eq_decide.mpr
    constructor <;> intro hx <;> linarith
  rw [heq]

theorem specLocateCount_le (lh my dlgy : Int) (n : Nat) :
    specLocateCount lh my dlgy n ≤ n := by
  unfold specLocateCount
  calc ((List.range n).takeWhile _).length ≤ (List.range n).length :=
        (List.takeWhile_prefix _).sublist.length_le
    _ = n := List.length_range n

theorem tlFindLine_eq_count (lh my : Int) (offs : List Nat) :
    ∀ (lines : List (List Char)) (j total : Nat) (dlgy : Int),
      tlFindLine lh my offs lines j total dlgy =
        (j + specLocateCount lh my dlgy lines.length,
         (if specLocateCount lh my dlgy lines.length = 0 then total
          else offs.getD (j + specLocateCount lh my dlgy lines.length) 0),
         dlgy + (specLocateCount lh my dlgy lines.length : Int) * lh) := by
  intro lines
  induction lines with
  | nil =>
    intro j total dlgy
    simp [tlFindLine, specLocateCount]
  | cons l rest ih =>
    intro j total dlgy
    rw [show tlFindLine lh my offs (l :: rest) j total dlgy =
      (if dlgy + lh < my then
        tlFindLine lh my offs rest (j + 1) (offs.getD (j + 1) 0) (dlgy + lh)
      else (j, total, dlgy)) from rfl]
    rw [List.length_cons, specLocateCount_succ]
    by_cases h : dlgy + lh < my
    · rw [if_pos h, if_pos h, ih (j + 1) (offs.getD (j + 1) 0) (dlgy + lh)]
      set c' := specLocateCount lh my (dlgy + lh) rest.length with hc
      simp only [Prod.mk.injEq]
      refine ⟨by omega, ?_, by push_cast; ring⟩
      have h1c : ¬ (1 + c' = 0) := by omega
      rw [if_neg h1c]
      rcases Nat.eq_zero_or_pos c' with hz | hpos
      · rw [hz, if_pos rfl]
      · rw [if_neg (by omega)]
        have hj : j + 1 + c' = j + (1 + c') := by omega
        rw [hj]
    · rw [if_neg h, if_neg h]
      simp

theorem optMatch_strMouseLoc (st : DialogState) (X : Option Nat) (slen : Nat) :
    (match X with
     | some off => { st with strMouseLoc := (off : Int) }
     | none => { st with strMouseLoc := (slen : Int) }).strMouseLoc =
    (match X with
     | some off => ((off : Nat) : Int)
     | none => ((slen : Nat) : Int)) := by
  cases X <;> rfl

theorem scan_drop_total (font : FontMetrics) (s : List Char)
    (lines : List (List Char)) (mx startx : Int) (k : Nat) (h : k ≤ lines.length) :
    (match specScanFrom font mx startx (lines.drop k)
        (if k = 0 then 0 else (wrappedLineOffsets s lines).getD k 0) with
     | some off => ((off : Nat) : Int)
     | none => ((s.length : Nat) : Int)) =
    (match specScanFrom font mx startx (lines.drop k) (chainOff lines k) with
     | some off => ((off : Nat) : Int)
     | none => ((s.length : Nat) : Int)) := by
  rcases Nat.eq_zero_or_pos k with hz | hpos
  · subst hz
    simp [chainOff_zero]
  · rw [if_neg (by omega)]
    rcases lt_or_eq_of_le h with hlt | heq
    · rw [wrappedLineOffsets_getD s lines k hlt]
    · subst heq
      rw [List.drop_length]
      rfl

theorem drawFindSelectionTxtOffset_eq_spec (font : FontMetrics) (s : List Char)
    (leftJust : Bool) (st : DialogState) :
    (drawFindSelectionTxtOffset font s leftJust st).strMouseLoc =
      specTxtOffset font s leftJust st := by
  simp only [drawFindSelectionTxtOffset, specTxtOffset]
  rw [tlFindLine_eq_count]
  simp only [Nat.zero_add]
  rw [tlScanLines_eq_spec]
  rw [optMatch_strMouseLoc]
  exact scan_drop_total font s _ _ _ _ (specLocateCount_le _ _ _ _)

/-! ## Helper lemmas for the layout round trip -/

theorem stringWidth_take_ge (font : FontMetrics) (hw : ∀ c, 1 ≤ font.charWidth c) :
    ∀ (l : List Char) (m : Nat), m ≤ l.length → (m : Int) ≤ stringWidth font (l.take m) := by
  intro l
  induction l with
  | nil =>
    intro m hm
    have hm0 : m = 0 := by simpa using hm
    subst hm0
    simp [stringWidth]
  | cons c rest ih =>
    intro m hm
    cases m with
    | zero => simp [stringWidth]
    | succ j =>
      have := ih j (by simpa using hm)
      have := hw c.toNat
      simp only [List.take_succ_cons, stringWidth]
      push_cast
      omega

theorem tlScanChars_hit (font : FontMetrics) (hw : ∀ c, 1 ≤ font.charWidth c) :
    ∀ (l : List Char) (d : Int) (k m : Nat), m ≤ l.length → l ≠ [] →
      tlScanChars font (d + stringWidth font (l.take m)) l d k = some (k + (m - 1)) := by
  intro l
  induction l with
  | nil => intro d k m hm hne; exact absurd rfl hne
  | cons c rest ih =>
    intro d k m hm _
    cases m with
    | zero =>
      have := hw c.toNat
      simp only [List.take_zero, stringWidth, tlScanChars]
      rw [if_pos (by omega)]
      simp
    | succ j =>
      simp only [List.take_succ_cons, stringWidth, tlScanChars]
      cases Nat.eq_zero_or_pos j with
      | inl hz =>
        subst hz
        rw [if_pos (by simp [stringWidth])]
        simp
      | inr hpos =>
        have hjr : j ≤ rest.length := by simpa using hm
        have hge : (j : Int) ≤ stringWidth font (rest.take j) :=
          stringWidth_take_ge font hw rest j hjr
        rw [if_neg (by omega)]
        have hrest : rest ≠ [] := by
          cases rest with
          | nil => simp at hjr; omega
          | cons _ _ => simp
        have := ih (d + font.charWidth c.toNat) (k + 1) j hjr hrest
        rw [show d + (font.charWidth c.toNat + stringWidth font (rest.take j)) =
          d + font.charWidth c.toNat + stringWidth font (rest.take j) from by ring]
        rw [this]
        congr 1
        omega

theorem chainTotal_eq {s : List Char} {lines : List (List Char)} (h : WrapOk s lines) :
    chainTotal lines = s.length + 1 := by
  obtain ⟨n, hn⟩ : ∃ n, lines.length = n + 1 := by
    cases hl : lines with
    | nil => exact absurd hl h.nonnil
    | cons a b => exact ⟨b.length, by simp⟩
  have := h.total
  rw [hn] at this
  simp only [Nat.add_sub_cancel] at this
  unfold chainTotal
  rw [hn, chainOff_succ lines n (by omega)]
  omega

theorem chainOff_add_len_le {s : List Char} {lines : List (List Char)} (h : WrapOk s lines)
    (k : Nat) (hk : k < lines.length) :
    chainOff lines k + (lines.getD k []).length ≤ s.length := by
  have h1 : chainOff lines (k + 1) = chainOff lines k + (lines.getD k []).length + 1 :=
    chainOff_succ lines k hk
  have h2 : chainOff lines (k + 1) ≤ chainOff lines lines.length :=
    chainOff_mono lines (k + 1) lines.length (by omega)
  have h3 := chainTotal_eq h
  unfold chainTotal at h3
  omega

theorem xyFindLine_spec :
    ∀ (lines : List (List Char)) (o : Nat), o < chainTotal lines →
      ∃ k, k < lines.length ∧ xyFindLine lines (o : Int) = (chainOff lines k, k) ∧
        chainOff lines k ≤ o ∧ o < chainOff lines k + (lines.getD k []).length + 1 := by
  intro lines
  induction lines with
  | nil =>
    intro o ho
    simp [chainTotal, chainOff] at ho
  | cons l rest ih =>
    intro o ho
    by_cases h : o < l.length + 1
    · refine ⟨0, by simp, ?_, by simp [chainOff_zero], by simpa [chainOff_zero] using h⟩
      rw [show xyFindLine (l :: rest) (o : Int) =
        (if (l.length : Int) + 1 > (o : Int) then ((0 : Nat), (0 : Nat))
         else
          (l.length + 1 + (xyFindLine rest ((o : Int) - ((l.length : Int) + 1))).1,
           (xyFindLine rest ((o : Int) - ((l.length : Int) + 1))).2 + 1)) from rfl]
      rw [if_pos (by omega)]
      simp [chainOff_zero]
    · have ho' : o - (l.length + 1) < chainTotal rest := by
        have : chainTotal (l :: rest) = l.length + 1 + chainTotal rest := by
          unfold chainTotal
          simp only [List.length_cons]
          rw [show chainOff (l :: rest) (rest.length + 1) =
            l.length + 1 + chainOff rest rest.length from rfl]
        omega
      obtain ⟨k, hk, heq, hlo, hhi⟩ := ih (o - (l.length + 1)) ho'
      refine ⟨k + 1, by simpa using hk, ?_, ?_, ?_⟩
      · rw [show xyFindLine (l :: rest) (o : Int) =
          (if (l.length : Int) + 1 > (o : Int) then ((0 : Nat), (0 : Nat))
           else
            (l.length + 1 + (xyFindLine rest ((o : Int) - ((l.length : Int) + 1))).1,
             (xyFindLine rest ((o : Int) - ((l.length : Int) + 1))).2 + 1)) from rfl]
        rw [if_neg (by omega)]
        rw [show (o : Int) - ((l.length : Int) + 1) = ((o - (l.length + 1) : Nat) : Int) from by
          omega]
        rw [heq]
        rw [show chainOff (l :: rest) (k + 1) = l.length + 1 + chainOff rest k from rfl]
      · rw [show chainOff (l :: rest) (k + 1) = l.length + 1 + chainOff rest k from rfl]
        omega
      · rw [show chainOff (l :: rest) (k + 1) = l.length + 1 + chainOff rest k from rfl]
        simp only [List.getD_cons_succ]
        omega

theorem strSubstr_take {s : List Char} {lines : List (List Char)} (h : WrapOk s lines)
    (k m : Nat) (hk : k < lines.length) (hm : m ≤ (lines.getD k []).length) :
    strSubstr s (chainOff lines k) m = (lines.getD k []).take m := by
  have hbound : chainOff lines k + (lines.getD k []).length ≤ s.length :=
    chainOff_add_len_le h k hk
  apply List.ext_getElem
  · simp only [strSubstr, List.length_take, List.length_drop]
    omega
  · intro i h1 h2
    have hlen : (strSubstr s (chainOff lines k) m).length = m := by
      simp only [strSubstr, List.length_take, List.length_drop]
      omega
    have hi : i < m := hlen ▸ h1
    have his : chainOff lines k + i < s.length := by omega
    have hil : i < (lines.getD k []).length := by omega
    rw [show (strSubstr s (chainOff lines k) m)[i] =
      s[chainOff lines k + i] from by
        simp [strSubstr, List.getElem_take, List.getElem_drop]]
    rw [List.getElem_take]
    have hchars := h.chars k hk i hil
    rw [List.getD_eq_getElem _ _ hil, List.getD_eq_getElem _ _ his] at hchars
    exact hchars.symm

theorem lineStartsAux_mem :
    ∀ (lines : List (List Char)) (off o : Nat),
      o ∈ lineStartsAux lines off ↔ ∃ k, k < lines.length ∧ off + chainOff lines k = o := by
  intro lines
  induction lines with
  | nil => intro off o; simp [lineStartsAux]
  | cons l rest ih =>
    intro off o
    simp only [lineStartsAux, List.mem_cons, ih (off + l.length + 1) o]
    constructor
    · rintro (rfl | ⟨k, hk, hko⟩)
      · exact ⟨0, by simp, by simp [chainOff_zero]⟩
      · refine ⟨k + 1, by simpa using hk, ?_⟩
        rw [show chainOff (l :: rest) (k + 1) = l.length + 1 + chainOff rest k from rfl]
        omega
    · rintro ⟨k, hk, hko⟩
      cases k with
      | zero =>
        left
        rw [chainOff_zero] at hko
        omega
      | succ k =>
        right
        refine ⟨k, by simpa using hk, ?_⟩
        rw [show chainOff (l :: rest) (k + 1) = l.length + 1 + chainOff rest k from rfl] at hko
        omega

theorem lineStarts_mem (lines : List (List Char)) (o : Nat) :
    o ∈ lineStarts lines ↔ ∃ k, k < lines.length ∧ chainOff lines k = o := by
  simpa [lineStarts] using lineStartsAux_mem lines 0 o

theorem specLocateCount_exact (lh : Int) (hh : 1 ≤ lh) :
    ∀ (k : Nat) (dlgy0 : Int) (n : Nat), k < n →
      specLocateCount lh (dlgy0 + 1 + (k : Int) * lh) dlgy0 n = k := by
  intro k
  induction k with
  | zero =>
    intro dlgy0 n hn
    obtain ⟨n', rfl⟩ : ∃ n', n = n' + 1 := ⟨n - 1, by omega⟩
    rw [specLocateCount_succ]
    rw [if_neg (by norm_num; omega)]
  | succ j ih =>
    intro dlgy0 n hn
    obtain ⟨n', rfl⟩ : ∃ n', n = n' + 1 := ⟨n - 1, by omega⟩
    rw [specLocateCount_succ]
    have hj : (0 : Int) ≤ (j : Int) * lh := by positivity
    rw [if_pos (by push_cast; nlinarith)]
    have harith : dlgy0 + 1 + (((j + 1 : Nat)) : Int) * lh =
        (dlgy0 + lh) + 1 + (j : Int) * lh := by push_cast; ring
    rw [harith, ih (dlgy0 + lh) n' (by omega)]
    omega

theorem chainOff_lt (lines : List (List Char)) (k' k : Nat) (h1 : k' < k)
    (h2 : k' < lines.length) : chainOff lines k' < chainOff lines k := by
  have ha := chainOff_succ lines k' h2
  have hb := chainOff_mono lines (k' + 1) k (by omega)
  omega

/-- Round trip of `drawFindSelectionXY` then `drawFindSelectionTxtOffset`
under the wrapped-lines contract, unit-positive glyph widths and line
height, a valid in-range offset (`1 ≤ o < length`), and a text area wide
enough that the right-edge overflow correction does not fire: the result
is `o` when `o` starts a wrapped line, `o - 1` otherwise. -/
theorem roundtrip_core
    (font : FontMetrics) (s : List Char) (lines : List (List Char)) (maxW : Int)
    (leftJust : Bool) (st0 : DialogState) (o : Nat)
    (hwrapEq : font.wordWrap s st0.loc.width = (lines, maxW))
    (hwrap : WrapOk s lines)
    (hw : ∀ c, 1 ≤ font.charWidth c)
    (hh : 1 ≤ font.fontHeight)
    (hst : st0.strMouseLoc = (o : Int))
    (ho1 : 1 ≤ o) (ho2 : o < s.length)
    (hnoov : ¬ (st0.loc.x + st0.loc.width <
      xyComputedX font s leftJust st0.loc (o : Int) + font.charWidth o)) :
    (drawFindSelectionTxtOffset font s leftJust
        (drawFindSelectionXY font s leftJust st0)).strMouseLoc =
      (if o ∈ lineStarts lines then (o : Int) else (o : Int) - 1) := by
  obtain ⟨k, hk, hfl, hlo, hhi⟩ := xyFindLine_spec lines o (by
    rw [chainTotal_eq hwrap]; omega)
  set m := o - chainOff lines k with hm
  have hmlen : m ≤ (lines.getD k []).length := by omega
  have hline_ne : lines.getD k [] ≠ [] := hwrap.linesNonempty k hk
  have htoNatm : ((o : Int) - ((chainOff lines k : Nat) : Int)).toNat = m := by omega
  have htoNato : ((o : Nat) : Int).toNat = o := by omega
  have hnz : ¬ (((o : Nat) : Int) = 0) := by omega
  have hcl : ¬ ((s.length : Int) ≤ ((o : Nat) : Int)) := by omega
  have hnoov' : ¬ (st0.loc.x + st0.loc.width <
      ((if leftJust then st0.loc.x + Int.tdiv (st0.loc.width - maxW - 1) 2
        else st0.loc.x) +
       stringWidth font (strSubstr s (chainOff lines k) m)) + font.charWidth o) := by
    simp only [xyComputedX, hwrapEq, hfl] at hnoov
    rw [htoNatm] at hnoov
    exact hnoov
  have hXY : drawFindSelectionXY font s leftJust st0 =
      { st0 with
        lastMouseX := (if leftJust then
            st0.loc.x + Int.tdiv (st0.loc.width - maxW - 1) 2
          else st0.loc.x) + stringWidth font (strSubstr s (chainOff lines k) m),
        lastMouseY := (if leftJust then
            st0.loc.y + 1 + Int.tdiv (st0.loc.height -
              (lines.length : Int) * font.fontHeight - 1) 2
          else st0.loc.y + 1) + (k : Int) * font.fontHeight,
        charWidth := font.charWidth o,
        charHeight := font.fontHeight,
        strMouseLoc := ((o : Nat) : Int) } := by
    simp only [drawFindSelectionXY, hwrapEq, hst]
    rw [if_neg hnz, if_neg hcl, hfl]
    simp only [htoNatm, htoNato]
    rw [if_neg hnoov']
  rw [hXY]
  simp only [drawFindSelectionTxtOffset, hwrapEq]
  rw [tlFindLine_eq_count]
  have hMY : (if leftJust then
        st0.loc.y + 1 + Int.tdiv (st0.loc.height -
          (lines.length : Int) * font.fontHeight - 1) 2
      else st0.loc.y + 1) + (k : Int) * font.fontHeight =
      (if leftJust then
        st0.loc.y + Int.tdiv (st0.loc.height -
          (lines.length : Int) * font.fontHeight - 1) 2
      else st0.loc.y) + 1 + (k : Int) * font.fontHeight := by
    by_cases hl : leftJust <;> simp [hl] <;> ring
  rw [hMY, specLocateCount_exact font.fontHeight hh k _ lines.length hk]
  simp only [Nat.zero_add]
  have htot : (if k = 0 then 0 else (wrappedLineOffsets s lines).getD k 0) =
      chainOff lines k := by
    rcases Nat.eq_zero_or_pos k with hz | hpos
    · rw [if_pos hz, hz, chainOff_zero]
    · rw [if_neg (by omega), wrappedLineOffsets_getD s lines k hk]
  rw [htot]
  have hdrop : lines.drop k = (lines.getD k []) :: lines.drop (k + 1) := by
    rw [List.getD_eq_getElem _ _ hk]
    exact List.drop_eq_getElem_cons hk
  rw [hdrop]
  have hsub : strSubstr s (chainOff lines k) m = (lines.getD k []).take m :=
    strSubstr_take hwrap k m hk hmlen
  rw [hsub]
  rw [show tlScanLines font
      ((if leftJust then st0.loc.x + Int.tdiv (st0.loc.width - maxW - 1) 2
        else st0.loc.x) + stringWidth font ((lines.getD k []).take m))
      (if leftJust then st0.loc.x + Int.tdiv (st0.loc.width - maxW - 1) 2
        else st0.loc.x)
      ((lines.getD k []) :: lines.drop (k + 1)) (chainOff lines k) =
    (match tlScanChars font
        ((if leftJust then st0.loc.x + Int.tdiv (st0.loc.width - maxW - 1) 2
          else st0.loc.x) + stringWidth font ((lines.getD k []).take m))
        (lines.getD k [])
        (if leftJust then st0.loc.x + Int.tdiv (st0.loc.width - maxW - 1) 2
          else st0.loc.x) 0 with
     | some c => some (chainOff lines k + c)
     | none => tlScanLines font
        ((if leftJust then st0.loc.x + Int.tdiv (st0.loc.width - maxW - 1) 2
          else st0.loc.x) + stringWidth font ((lines.getD k []).take m))
        (if leftJust then st0.loc.x + Int.tdiv (st0.loc.width - maxW - 1) 2
          else st0.loc.x)
        (lines.drop (k + 1)) (chainOff lines k + (lines.getD k []).length + 1)) from rfl]
  rw [tlScanChars_hit font hw (lines.getD k []) _ 0 m hmlen hline_ne]
  have hmem : (o ∈ lineStarts lines) ↔ m = 0 := by
    rw [lineStarts_mem]
    constructor
    · rintro ⟨k', hk', hko⟩
      rcases lt_trichotomy k' k with h1 | h1 | h1
      · have := chainOff_lt lines k' k h1 hk'
        omega
      · subst h1
        omega
      · have h2 := chainOff_succ lines k hk
        have h3 := chainOff_mono lines (k + 1) k' (by omega)
        omega
    · intro hm0
      exact ⟨k, hk, by omega⟩
  by_cases hmm : m = 0
  · rw [if_pos (hmem.mpr hmm)]
    simp only [hmm]
    norm_num
    omega
  · rw [if_neg (fun hx => hmm (hmem.mp hx))]
    simp only []
    push_cast
    omega

/-! ## Helper lemmas: index wrapping and the selection state machine -/

theorem bringNonnegAux_emod (n : Nat) :
    ∀ (fuel : Nat) (i : Int), (bringNonnegAux n fuel i) % (n : Int) = i % (n : Int) := by
  intro fuel
  induction fuel with
  | zero => intro i; rfl
  | succ f ih =>
    intro i
    rw [show bringNonnegAux n (f + 1) i =
      (if i < 0 then bringNonnegAux n f (i + n) else i) from rfl]
    by_cases h : i < 0
    · rw [if_pos h, ih (i + n)]
      rw [show i + (n : Int) = i + (n : Int) * 1 from by ring, Int.add_mul_emod_self_left]
    · rw [if_neg h]

theorem bringNonnegAux_nonneg (n : Nat) :
    ∀ (fuel : Nat) (i : Int), -i ≤ (fuel : Int) * n → 0 ≤ bringNonnegAux n fuel i := by
  intro fuel
  induction fuel with
  | zero =>
    intro i hi
    rw [show bringNonnegAux n 0 i = i from rfl]
    push_cast at hi
    omega
  | succ f ih =>
    intro i hi
    rw [show bringNonnegAux n (f + 1) i =
      (if i < 0 then bringNonnegAux n f (i + n) else i) from rfl]
    by_cases h : i < 0
    · rw [if_pos h]
      apply ih
      have hexp : ((f + 1 : Nat) : Int) * n = (f : Int) * n + n := by push_cast; ring
      rw [hexp] at hi
      omega
    · rw [if_neg h]
      omega

theorem wrapIdx_eq_emod (i : Int) (n : Nat) (hn : 0 < n) :
    wrapIdx i n = i % (n : Int) := by
  unfold wrapIdx bringNonneg
  have h1 : 0 ≤ bringNonnegAux n i.natAbs i := by
    apply bringNonnegAux_nonneg
    have ha : -i ≤ (i.natAbs : Int) := by omega
    have hb : (i.natAbs : Int) ≤ (i.natAbs : Int) * n := by
      nlinarith [Int.natCast_nonneg i.natAbs, Int.natCast_nonneg n]
    omega
  rw [Int.tmod_eq_emod h1 (by positivity)]
  exact bringNonnegAux_emod n i.natAbs i

theorem wrapIdx_range (i : Int) (n : Nat) (hn : 0 < n) :
    0 ≤ wrapIdx i n ∧ wrapIdx i n < (n : Int) := by
  rw [wrapIdx_eq_emod i n hn]
  exact ⟨Int.emod_nonneg i (by omega), Int.emod_lt_of_pos i (by omega)⟩

theorem advance_iterate (delta : Int) (n : Nat) (hn : 0 < n) :
    ∀ (mm : Nat) (i : Int),
      (fun j => wrapIdx (j + delta) n)^[mm + 1] i =
        (i + ((mm : Int) + 1) * delta) % (n : Int) := by
  intro mm
  induction mm with
  | zero =>
    intro i
    simp only [Nat.zero_add, Function.iterate_one]
    rw [wrapIdx_eq_emod _ n hn]
    norm_num
  | succ m ih =>
    intro i
    rw [Function.iterate_succ_apply', ih i, wrapIdx_eq_emod _ n hn]
    rw [Int.emod_add_emod]
    congr 1
    push_cast
    ring

theorem advance_cycle (delta : Int) (n : Nat) (hn : 0 < n) (i : Int)
    (h0 : 0 ≤ i) (h1 : i < (n : Int)) :
    (fun j => wrapIdx (j + delta) n)^[n] i = i := by
  obtain ⟨m, rfl⟩ : ∃ m, n = m + 1 := ⟨n - 1, by omega⟩
  rw [advance_iterate delta (m + 1) hn m i]
  rw [show (i + ((m : Int) + 1) * delta) = i + ((m + 1 : Nat) : Int) * delta from by
    push_cast; ring]
  rw [Int.add_mul_emod_self_left]
  exact Int.emod_eq_of_lt h0 h1

theorem Dialog.draw_isSome (font : FontMetrics) (isDragon : Bool) (d : Dialog)
    (stage : DialogDrawStage)
    (hframe : d.frameType = 1 ∨ d.frameType = 2 ∨ d.frameType = 3 ∨ d.frameType = 4) :
    (Dialog.draw font isDragon d stage).isSome := by
  unfold Dialog.draw
  cases hds : d.state <;> rcases hframe with hf | hf | hf | hf <;> simp [hds, hf]

theorem Dialog.draw_txtOffset_eq (font : FontMetrics) (isDragon : Bool) (d : Dialog)
    (st : DialogState) (hstate : d.state = some st)
    (hframe : d.frameType = 1 ∨ d.frameType = 2 ∨ d.frameType = 3 ∨ d.frameType = 4) :
    Dialog.draw font isDragon d DialogDrawStage.findSelectionTxtOffset =
      some
        ({ d with
            state := some (drawFindSelectionTxtOffset font d.str d.flags.leftJust st) },
         []) := by
  unfold Dialog.draw
  rcases hframe with hf | hf | hf | hf <;>
    simp [hf, hstate, drawType1, drawType2, drawType3, drawType4]

/-- `updateSelectedAction` when a selected action with a valid index is
recorded: the shared index becomes `(i + delta)` wrapped modulo the action
count, regardless of who owned the shared marker. -/
theorem updateSelectedAction_step (font : FontMetrics) (isDragon : Bool)
    (thisId : Nat) (delta : Int) (d : Dialog) (g : DialogGlobals)
    (st : DialogState) (i : Nat)
    (hstate : d.state = some st) (hsel : st.selectedAction = some i)
    (hi : i < d.action.length)
    (hframe : d.frameType = 1 ∨ d.frameType = 2 ∨ d.frameType = 3 ∨ d.frameType = 4) :
    (updateSelectedAction font isDragon thisId delta d g).map
        (fun t => t.2.1.lastSelectedDialogItemNum) =
      some (((i : Int) + delta) % (d.action.length : Int)) := by
  have hne : d.action.isEmpty = false := by
    cases hl : d.action with
    | nil => rw [hl] at hi; simp at hi
    | cons a b => simp [hl]
  have hne' : ¬ (d.action.isEmpty = true) := by simp [hne]
  have hwrap := wrapIdx_eq_emod ((i : Int) + delta) d.action.length (by omega)
  unfold updateSelectedAction
  rcases hc : g.lastDialogSelectionChangedFor with _ | oldId
  all_goals
    simp only [hc, hstate, hsel]
    rw [if_pos hi, if_neg hne']
    by_cases hbig : 1 < d.action.length
    · rw [if_pos hbig]
      split
      · exfalso
        rename_i heq
        unfold Dialog.draw at heq
        rcases hframe with hf | hf | hf | hf <;> simp [hf] at heq
      · simp [hwrap]
    · rw [if_neg hbig]
      simp [hwrap]

/-- `updateSelectedAction` on an empty action list: the wrap step is
skipped and the shared index becomes the post-claim/reset value plus
`delta`, unwrapped. -/
theorem updateSelectedAction_empty (font : FontMetrics) (isDragon : Bool)
    (thisId : Nat) (delta : Int) (d : Dialog) (g : DialogGlobals) (st : DialogState)
    (hstate : d.state = some st) (hact : d.action = []) :
    updateSelectedAction font isDragon thisId delta d g =
      some (d,
        { lastSelectedDialogItemNum :=
            (if g.lastDialogSelectionChangedFor = none then
              g.lastSelectedDialogItemNum else 0) + delta,
          lastDialogSelectionChangedFor := some thisId },
        if delta = 0 then some (st.loc.x + st.loc.width, st.loc.y + st.loc.height - 2)
        else none) := by
  unfold updateSelectedAction
  rcases hc : g.lastDialogSelectionChangedFor with _ | oldId <;>
    rcases hs : st.selectedAction with _ | a <;>
      simp [hstate, hact, hc, hs]

/-! ## Helper lemmas: the save-state synchronizer -/

theorem runSyncs_ok {R E : Type} :
    ∀ (l : List ((R → R × Option E) × SyncStep)),
      (∀ p ∈ l, ∀ r, (p.1 r).2 = none) →
      ∀ (r : R) (log : List SyncStep),
        (runSyncs l r log).2.1 = none ∧
        (runSyncs l r log).2.2 = log ++ l.map Prod.snd := by
  intro l
  induction l with
  | nil => intro _ r log; simp [runSyncs]
  | cons p rest ih =>
    intro hok r log
    have hp := hok p (by simp) r
    obtain ⟨f, lbl⟩ := p
    simp only [runSyncs]
    simp only at hp
    rw [hp]
    have := ih (fun q hq r' => hok q (by simp [hq]) r') (f r).1 (log ++ [lbl])
    simpa using this

theorem runSyncs_err {R E : Type} (e : E) :
    ∀ (l1 : List ((R → R × Option E) × SyncStep))
      (f : R → R × Option E) (lbl : SyncStep)
      (l2 : List ((R → R × Option E) × SyncStep)),
      (∀ p ∈ l1, ∀ r, (p.1 r).2 = none) → (∀ r, (f r).2 = some e) →
      ∀ (r : R) (log : List SyncStep),
        (runSyncs (l1 ++ (f, lbl) :: l2) r log).2.1 = some e ∧
        (runSyncs (l1 ++ (f, lbl) :: l2) r log).2.2 =
          log ++ l1.map Prod.snd ++ [lbl] := by
  intro l1
  induction l1 with
  | nil =>
    intro f lbl l2 _ herr r log
    simp only [List.nil_append, runSyncs]
    rw [herr r]
    simp
  | cons p rest ih =>
    intro f lbl l2 hok herr r log
    have hp := hok p (by simp) r
    obtain ⟨f1, lbl1⟩ := p
    simp only [List.cons_append, runSyncs]
    simp only at hp
    rw [hp]
    have := ih f lbl l2 (fun q hq r' => hok q (by simp [hq]) r') herr (f1 r).1 (log ++ [lbl1])
    simpa using this

/-- When every subsystem sync succeeds (and, when loading, the version is
supported and the scene resource exists), `syncGame` returns no error and
performs exactly the expected ordered steps. -/
theorem syncGame_success {R B E : Type} (env : Env R B E) (ser : Ser)
    (st : EngineSt R B)
    (hver : ser.isLoading = true → ser.version ≤ 4)
    (hres : ser.isLoading = true → env.hasResource ser.loadSceneNum = true)
    (h1 : ∀ r, (env.gdsSceneSync r).2 = none)
    (h2 : ∀ r, (env.sceneSync r).2 = none)
    (h3 : ∀ r, (env.globalsSync r).2 = none)
    (h4 : ∀ r, (env.clockSync r).2 = none)
    (h5 : ∀ r, (env.inventorySync r).2 = none)
    (h6 : ∀ r, (env.palsSync r).2 = none)
    (h7 : ∀ r, (env.adsSync r).2 = none) :
    (syncGame env ser st).map (fun t => (t.2.1, t.2.2)) =
      some (none,
        expectedSyncOrder ser.isLoading (if ser.isLoading then ser.version else 4)) := by
  have hmid := runSyncs_ok
    [(env.sceneSync, SyncStep.sceneState), (env.globalsSync, SyncStep.globals),
     (env.clockSync, SyncStep.clock), (env.inventorySync, SyncStep.inventory)]
    (by
      intro p hp r
      simp only [List.mem_cons, List.not_mem_nil, or_false] at hp
      rcases hp with rfl | rfl | rfl | rfl
      · exact h2 r
      · exact h3 r
      · exact h4 r
      · exact h5 r)
  simp only [syncGame]
  by_cases hl : ser.isLoading = true
  · rw [if_neg (by simp [hl]; have := hver hl; omega)]
    simp only [hl, if_true, hres hl]
    rw [h1]
    simp only [Bool.true_eq_false, if_false]
    obtain ⟨hme, hml⟩ := hmid (env.addInvButton (env.sceneLoad ser.loadSceneNum
      (env.adsUnload (env.sceneUnload (env.stopAllSfx (env.unloadMusic
        (env.gdsSceneSync (env.menuHide st.rest)).1))))))
      [SyncStep.sceneDir, SyncStep.sceneNum]
    simp only [hme]
    by_cases hv : ser.version < 4
    · simp only [if_pos hv, h6, h7]
      simp [syncTail, expectedSyncOrder, hml, hv, hl]
    · simp only [if_neg hv, hl, if_true, h7]
      simp [syncTail, expectedSyncOrder, hml, hv, hl]
  · have hl' : ser.isLoading = false := by
      cases h : ser.isLoading
      · rfl
      · exact absurd h hl
    rw [if_neg (by simp [hl'])]
    simp only [hl', Bool.false_eq_true, if_false]
    rw [h1]
    obtain ⟨hme, hml⟩ := hmid ((env.gdsSceneSync (env.menuHide st.rest)).1)
      [SyncStep.sceneDir, SyncStep.sceneNum]
    simp only [hme]
    rw [if_neg (by omega)]
    simp only [hl', Bool.false_eq_true, if_false, h7]
    simp [syncTail, expectedSyncOrder, hml, hl']

/-- A failing scene-directory sync stops `syncGame` immediately after the
first step and propagates the error unchanged. -/
theorem syncGame_err_gds {R B E : Type} (env : Env R B E) (ser : Ser)
    (st : EngineSt R B) (e : E)
    (hver : ser.isLoading = true → ser.version ≤ 4)
    (herr : ∀ r, (env.gdsSceneSync r).2 = some e) :
    (syncGame env ser st).map (fun t => (t.2.1, t.2.2)) =
      some (some e, [SyncStep.sceneDir]) := by
  simp only [syncGame]
  rw [if_neg (by intro hx; have := hver hx.1; omega)]
  simp only [herr]
  rfl

/-- Generic mid-chain failure: if the four-subsystem chain after the scene
reload is presented as `l1 ++ (f, lbl) :: l2` with everything before `f`
succeeding and `f` failing, `syncGame` stops at `lbl`. -/
theorem syncGame_err_mid {R B E : Type} (env : Env R B E) (ser : Ser)
    (st : EngineSt R B) (e : E)
    (l1 l2 : List ((R → R × Option E) × SyncStep)) (f : R → R × Option E)
    (lbl : SyncStep)
    (hsplit : l1 ++ (f, lbl) :: l2 =
      [(env.sceneSync, SyncStep.sceneState), (env.globalsSync, SyncStep.globals),
       (env.clockSync, SyncStep.clock), (env.inventorySync, SyncStep.inventory)])
    (hver : ser.isLoading = true → ser.version ≤ 4)
    (hres : ser.isLoading = true → env.hasResource ser.loadSceneNum = true)
    (h1 : ∀ r, (env.gdsSceneSync r).2 = none)
    (hok : ∀ p ∈ l1, ∀ r, (p.1 r).2 = none)
    (herr : ∀ r, (f r).2 = some e) :
    (syncGame env ser st).map (fun t => (t.2.1, t.2.2)) =
      some (some e,
        [SyncStep.sceneDir, SyncStep.sceneNum] ++ l1.map Prod.snd ++ [lbl]) := by
  have hrun := runSyncs_err e l1 f lbl l2 hok herr
  rw [hsplit] at hrun
  simp only [syncGame]
  by_cases hl : ser.isLoading = true
  · rw [if_neg (by simp [hl]; have := hver hl; omega)]
    simp only [hl, if_true, hres hl]
    rw [h1]
    simp only [Bool.true_eq_false, if_false]
    obtain ⟨hre, hrl⟩ := hrun (env.addInvButton (env.sceneLoad ser.loadSceneNum
      (env.adsUnload (env.sceneUnload (env.stopAllSfx (env.unloadMusic
        (env.gdsSceneSync (env.menuHide st.rest)).1))))))
      [SyncStep.sceneDir, SyncStep.sceneNum]
    simp only [hre]
    simp [hrl]
  · have hl' : ser.isLoading = false := by
      cases h : ser.isLoading
      · rfl
      · exact absurd h hl
    rw [if_neg (by simp [hl'])]
    simp only [hl', Bool.false_eq_true, if_false]
    rw [h1]
    obtain ⟨hre, hrl⟩ := hrun ((env.gdsSceneSync (env.menuHide st.rest)).1)
      [SyncStep.sceneDir, SyncStep.sceneNum]
    simp only [hre]
    simp [hrl]

/-- A failing legacy-palette sync (only invoked for version < 4) stops
`syncGame` right after the palette step. -/
theorem syncGame_err_pals {R B E : Type} (env : Env R B E) (ser : Ser)
    (st : EngineSt R B) (e : E)
    (hl : ser.isLoading = true) (hv : ser.version < 4)
    (hres : env.hasResource ser.loadSceneNum = true)
    (h1 : ∀ r, (env.gdsSceneSync r).2 = none)
    (h2 : ∀ r, (env.sceneSync r).2 = none)
    (h3 : ∀ r, (env.globalsSync r).2 = none)
    (h4 : ∀ r, (env.clockSync r).2 = none)
    (h5 : ∀ r, (env.inventorySync r).2 = none)
    (herr : ∀ r, (env.palsSync r).2 = some e) :
    (syncGame env ser st).map (fun t => (t.2.1, t.2.2)) =
      some (some e,
        [SyncStep.sceneDir, SyncStep.sceneNum, SyncStep.sceneState, SyncStep.globals,
         SyncStep.clock, SyncStep.inventory, SyncStep.palette]) := by
  have hmid := runSyncs_ok
    [(env.sceneSync, SyncStep.sceneState), (env.globalsSync, SyncStep.globals),
     (env.clockSync, SyncStep.clock), (env.inventorySync, SyncStep.inventory)]
    (by
      intro p hp r
      simp only [List.mem_cons, List.not_mem_nil, or_false] at hp
      rcases hp with rfl | rfl | rfl | rfl
      · exact h2 r
      · exact h3 r
      · exact h4 r
      · exact h5 r)
  simp only [syncGame]
  rw [if_neg (by simp [hl]; omega)]
  simp only [hl, if_true, hres]
  rw [h1]
  simp only [Bool.true_eq_false, if_false]
  obtain ⟨hme, hml⟩ := hmid (env.addInvButton (env.sceneLoad ser.loadSceneNum
    (env.adsUnload (env.sceneUnload (env.stopAllSfx (env.unloadMusic
      (env.gdsSceneSync (env.menuHide st.rest)).1))))))
    [SyncStep.sceneDir, SyncStep.sceneNum]
  simp only [hme]
  simp only [if_pos hv, herr]
  simp [hml]

/-- A failing script-overlay (ADS) sync stops `syncGame` right after the
ADS step; no scalar sync or enter-ops re-run happens. -/
theorem syncGame_err_ads {R B E : Type} (env : Env R B E) (ser : Ser)
    (st : EngineSt R B) (e : E)
    (hver : ser.isLoading = true → ser.version ≤ 4)
    (hres : ser.isLoading = true → env.hasResource ser.loadSceneNum = true)
    (h1 : ∀ r, (env.gdsSceneSync r).2 = none)
    (h2 : ∀ r, (env.sceneSync r).2 = none)
    (h3 : ∀ r, (env.globalsSync r).2 = none)
    (h4 : ∀ r, (env.clockSync r).2 = none)
    (h5 : ∀ r, (env.inventorySync r).2 = none)
    (h6 : ∀ r, (env.palsSync r).2 = none)
    (herr : ∀ r, (env.adsSync r).2 = some e) :
    (syncGame env ser st).map (fun t => (t.2.1, t.2.2)) =
      some (some e,
        ([SyncStep.sceneDir, SyncStep.sceneNum, SyncStep.sceneState, SyncStep.globals,
          SyncStep.clock, SyncStep.inventory]
         ++ (if (if ser.isLoading then ser.version else 4) < 4 then [SyncStep.palette]
             else if ser.isLoading then [SyncStep.paletteReset] else [])
         ++ [SyncStep.ads])) := by
  have hmid := runSyncs_ok
    [(env.sceneSync, SyncStep.sceneState), (env.globalsSync, SyncStep.globals),
     (env.clockSync, SyncStep.clock), (env.inventorySync, SyncStep.inventory)]
    (by
      intro p hp r
      simp only [List.mem_cons, List.not_mem_nil, or_false] at hp
      rcases hp with rfl | rfl | rfl | rfl
      · exact h2 r
      · exact h3 r
      · exact h4 r
      · exact h5 r)
  simp only [syncGame]
  by_cases hl : ser.isLoading = true
  · rw [if_neg (by simp [hl]; have := hver hl; omega)]
    simp only [hl, if_true, hres hl]
    rw [h1]
    simp only [Bool.true_eq_false, if_false]
    obtain ⟨hme, hml⟩ := hmid (env.addInvButton (env.sceneLoad ser.loadSceneNum
      (env.adsUnload (env.sceneUnload (env.stopAllSfx (env.unloadMusic
        (env.gdsSceneSync (env.menuHide st.rest)).1))))))
      [SyncStep.sceneDir, SyncStep.sceneNum]
    simp only [hme]
    by_cases hv : ser.version < 4
    · simp only [if_pos hv, h6, herr]
      simp [hml, hv, hl]
    · simp only [if_neg hv, hl, if_true, herr]
      simp [hml, hv, hl]
  · have hl' : ser.isLoading = false := by
      cases h : ser.isLoading
      · rfl
      · exact absurd h hl
    rw [if_neg (by simp [hl'])]
    simp only [hl', Bool.false_eq_true, if_false]
    rw [h1]
    obtain ⟨hme, hml⟩ := hmid ((env.gdsSceneSync (env.menuHide st.rest)).1)
      [SyncStep.sceneDir, SyncStep.sceneNum]
    simp only [hme]
    rw [if_neg (by omega)]
    simp only [hl', Bool.false_eq_true, if_false, herr]
    simp [hml]

/-! ## Helper lemmas: draw dispatch and action picking -/

theorem drawType1_keepsState (font : FontMetrics) (d : Dialog) (stage : DialogDrawStage)
    (st : DialogState) (h : d.state = some st) :
    ((drawType1 font d stage).1.state).isSome := by
  unfold drawType1
  rw [h]
  cases stage <;> simp [h]

theorem drawType2_keepsState (font : FontMetrics) (isDragon : Bool) (d : Dialog)
    (stage : DialogDrawStage) (st : DialogState) (h : d.state = some st) :
    ((drawType2 font isDragon d stage).1.state).isSome := by
  unfold drawType2
  rw [h]
  cases stage <;> simp [h]

theorem drawType3_keepsState (font : FontMetrics) (d : Dialog) (stage : DialogDrawStage)
    (st : DialogState) (h : d.state = some st) :
    ((drawType3 font d stage).1.state).isSome := by
  unfold drawType3
  rw [h]
  cases stage <;> simp [drawType3Background, h]

theorem drawType4_keepsState (font : FontMetrics) (d : Dialog) (stage : DialogDrawStage)
    (st : DialogState) (h : d.state = some st) :
    ((drawType4 font d stage).1.state).isSome := by
  unfold drawType4
  rw [h]
  cases stage <;> simp [h]

/-- `Dialog::draw` with a recognised frame type always succeeds and leaves
the dialog with a `DialogState` (creating a fresh one when absent). -/
theorem Dialog.draw_ensures_state (font : FontMetrics) (isDragon : Bool) (d : Dialog)
    (stage : DialogDrawStage)
    (hframe : d.frameType = 1 ∨ d.frameType = 2 ∨ d.frameType = 3 ∨ d.frameType = 4) :
    ∃ p, Dialog.draw font isDragon d stage = some p ∧ p.1.state.isSome := by
  unfold Dialog.draw
  cases hds : d.state with
  | none =>
    rcases hframe with hf | hf | hf | hf <;> simp only [hds, Option.isNone_none, if_pos] <;>
      simp only [hf]
    · exact ⟨_, rfl, drawType1_keepsState font _ stage freshDialogState (by simp)⟩
    · exact ⟨_, rfl, drawType2_keepsState font isDragon _ stage freshDialogState (by simp)⟩
    · exact ⟨_, rfl, drawType3_keepsState font _ stage freshDialogState (by simp)⟩
    · exact ⟨_, rfl, drawType4_keepsState font _ stage freshDialogState (by simp)⟩
  | some st =>
    rcases hframe with hf | hf | hf | hf <;>
      simp only [hds, Option.isNone_some, Bool.false_eq_true, if_false] <;>
        simp only [hf]
    · exact ⟨_, rfl, drawType1_keepsState font d stage st hds⟩
    · exact ⟨_, rfl, drawType2_keepsState font isDragon d stage st hds⟩
    · exact ⟨_, rfl, drawType3_keepsState font d stage st hds⟩
    · exact ⟨_, rfl, drawType4_keepsState font d stage st hds⟩

theorem findActionIdx_eq_findIdx (s : List Char) (u : Char) (loc : Int) :
    ∀ (l : List DialogAction) (i : Nat),
      findActionIdx s u loc l i =
        l.findIdx? (fun a =>
          decide (((a.strStart : Int) ≤ loc ∧ loc ≤ (a.strEnd : Int)) ∨
            (loc = (a.strEnd : Int) + 1 ∧ u = '\r' ∧
             s.getD a.strEnd (Char.ofNat 0) ≠ '\r'))) i := by
  intro l
  induction l with
  | nil => intro i; rfl
  | cons a rest ih =>
    intro i
    show (if ((a.strStart : Int) ≤ loc ∧ loc ≤ (a.strEnd : Int)) ∨
        (loc = (a.strEnd : Int) + 1 ∧ u = '\r' ∧ s.getD a.strEnd (Char.ofNat 0) ≠ '\r')
      then some i else findActionIdx s u loc rest (i + 1)) = _
    rw [List.findIdx?]
    by_cases h : ((a.strStart : Int) ≤ loc ∧ loc ≤ (a.strEnd : Int)) ∨
        (loc = (a.strEnd : Int) + 1 ∧ u = '\r' ∧ s.getD a.strEnd (Char.ofNat 0) ≠ '\r')
    · rw [if_pos h, if_pos (decide_eq_true h)]
    · rw [if_neg h, if_neg (by simpa using h), ih (i + 1)]

theorem findActionIdx_eq_spec (s : List Char) (u : Char) (loc : Int)
    (l : List DialogAction) :
    findActionIdx s u loc l 0 = specFindActionIdx s u loc l :=
  findActionIdx_eq_findIdx s u loc l 0

theorem drawType1_noState (font : FontMetrics) (d : Dialog) (stage : DialogDrawStage)
    (h : d.state = none) : drawType1 font d stage = (d, []) := by
  unfold drawType1
  rw [h]

theorem drawType2_noState (font : FontMetrics) (isDragon : Bool) (d : Dialog)
    (stage : DialogDrawStage) (h : d.state = none) :
    drawType2 font isDragon d stage = (d, []) := by
  unfold drawType2
  rw [h]

theorem drawType3_noState (font : FontMetrics) (d : Dialog) (stage : DialogDrawStage)
    (h : d.state = none) : drawType3 font d stage = (d, []) := by
  unfold drawType3
  rw [h]

theorem drawType4_noState (font : FontMetrics) (d : Dialog) (stage : DialogDrawStage)
    (h : d.state = none) : drawType4 font d stage = (d, []) := by
  unfold drawType4
  rw [h]

/-! ## Helper lemmas: `changeScene` rejection paths and the save version gate -/

theorem changeScene_self {R B E : Type} (fuel : Nat) (env : Env R B E)
    (st : EngineSt R B) :
    changeSceneF (fuel + 1) env st st.sceneNum =
      some (st, false, [Warn.selfScene st.sceneNum]) := by
  simp [changeSceneF]

theorem changeScene_missing {R B E : Type} (fuel : Nat) (env : Env R B E)
    (st : EngineSt R B) (target : Nat)
    (h1 : target ≠ st.sceneNum) (h2 : env.hasResource target = false)
    (h3 : ¬(target ≠ 2 ∧ st.sceneNum ≠ 2 ∧ st.invOpen = true)) :
    changeSceneF (fuel + 1) env st target =
      some (st, false, [Warn.missingScene target]) := by
  simp only [changeSceneF, if_neg h1, if_neg h3]
  rw [if_pos h2]
  simp

theorem syncGame_fatal_version {R B E : Type} (env : Env R B E) (ser : Ser)
    (st : EngineSt R B) (hl : ser.isLoading = true) (hv : 4 < ser.version) :
    syncGame env ser st = none := by
  simp only [syncGame]
  rw [if_pos ⟨hl, hv⟩]

/-! ## Helper lemmas: `pickAction` -/

theorem pickAction_closing_nonempty (font : FontMetrics) (isDragon : Bool) (r : Nat)
    (mx my : Int) (d : Dialog) (hne : d.action ≠ []) :
    pickAction font isDragon r mx my true false d = some (d, some r) := by
  simp [pickAction, List.isEmpty_iff, hne]

theorem pickAction_closing_empty (font : FontMetrics) (isDragon : Bool) (r : Nat)
    (mx my : Int) (d : Dialog) (hact : d.action = []) :
    pickAction font isDragon r mx my true false d = some (d, none) := by
  simp [pickAction, List.isEmpty_iff, hact]

theorem pickAction_resolve (font : FontMetrics) (isDragon : Bool) (r : Nat)
    (mx my : Int) (isClosing isForceClose : Bool) (d : Dialog) (st : DialogState)
    (hcond : (!isForceClose && isClosing) = false)
    (hstate : d.state = some st)
    (hframe : d.frameType = 1 ∨ d.frameType = 2 ∨ d.frameType = 3 ∨ d.frameType = 4)
    (hin : st.loc.x ≤ mx ∧ mx ≤ st.loc.x + st.loc.width ∧
           st.loc.y ≤ my ∧ my ≤ st.loc.y + st.loc.height) :
    (pickAction font isDragon r mx my isClosing isForceClose d).map (fun p => p.2) =
      some (match specFindActionIdx d.str
              (pickUnderChar d.str (pickResolvedSt font d st mx my).strMouseLoc)
              (pickResolvedSt font d st mx my).strMouseLoc d.action with
            | some i => some i
            | none =>
              if isClosing = true ∧ d.action.length = 1 then some 0 else none) := by
  unfold pickAction
  rw [if_neg (by simp [hcond])]
  simp only [hstate]
  rw [if_pos hin]
  rw [Dialog.draw_txtOffset_eq font isDragon _
    { st with lastMouseX := mx, lastMouseY := my } rfl (by simpa using hframe)]
  simp only [Option.getD_some]
  rw [show drawFindSelectionTxtOffset font d.str d.flags.leftJust
      { st with lastMouseX := mx, lastMouseY := my } = pickResolvedSt font d st mx my
    from rfl]
  rw [show (if 0 ≤ (pickResolvedSt font d st mx my).strMouseLoc ∧
        (pickResolvedSt font d st mx my).strMouseLoc < (d.str.length : Int) then
        d.str.getD (pickResolvedSt font d st mx my).strMouseLoc.toNat (Char.ofNat 0)
      else Char.ofNat 0) =
      pickUnderChar d.str (pickResolvedSt font d st mx my).strMouseLoc from rfl]
  rw [findActionIdx_eq_spec]
  cases hfa : specFindActionIdx d.str
      (pickUnderChar d.str (pickResolvedSt font d st mx my).strMouseLoc)
      (pickResolvedSt font d st mx my).strMouseLoc d.action with
  | none =>
    by_cases hc : isClosing = true ∧ d.action.length = 1 <;> simp [hc]
  | some i => rfl

theorem pickAction_outside (font : FontMetrics) (isDragon : Bool) (r : Nat)
    (mx my : Int) (isClosing isForceClose : Bool) (d : Dialog) (st : DialogState)
    (hcond : (!isForceClose && isClosing) = false)
    (hstate : d.state = some st)
    (hout : ¬(st.loc.x ≤ mx ∧ mx ≤ st.loc.x + st.loc.width ∧
              st.loc.y ≤ my ∧ my ≤ st.loc.y + st.loc.height)) :
    pickAction font isDragon r mx my isClosing isForceClose d =
      (if isClosing = true ∧ d.action.length = 1 then some (d, some 0)
       else some (d, none)) := by
  unfold pickAction
  rw [if_neg (by simp [hcond])]
  simp only [hstate]
  rw [if_neg hout]

theorem specFindActionIdx_singleton (s : List Char) (u : Char) (loc : Int)
    (a : DialogAction) :
    specFindActionIdx s u loc [a] =
      if ((a.strStart : Int) ≤ loc ∧ loc ≤ (a.strEnd : Int)) ∨
         (loc = (a.strEnd : Int) + 1 ∧ u = '\r' ∧
          s.getD a.strEnd (Char.ofNat 0) ≠ '\r') then some 0 else none := by
  by_cases h : ((a.strStart : Int) ≤ loc ∧ loc ≤ (a.strEnd : Int)) ∨
      (loc = (a.strEnd : Int) + 1 ∧ u = '\r' ∧ s.getD a.strEnd (Char.ofNat 0) ≠ '\r')
  · simp [specFindActionIdx, List.findIdx?, h]
  · simp [specFindActionIdx, List.findIdx?, h]

theorem pickAction_closing_singleton (font : FontMetrics) (isDragon : Bool) (r : Nat)
    (mx my : Int) (isForceClose : Bool) (d : Dialog) (st : DialogState)
    (hstate : d.state = some st)
    (hframe : d.frameType = 1 ∨ d.frameType = 2 ∨ d.frameType = 3 ∨ d.frameType = 4)
    (hone : d.action.length = 1) (hr : r < d.action.length) :
    (pickAction font isDragon r mx my true isForceClose d).map (fun p => p.2) =
      some (some 0) := by
  have hr0 : r = 0 := by omega
  subst hr0
  cases isForceClose with
  | false =>
    have hne : d.action ≠ [] := by
      intro h
      rw [h] at hone
      simp at hone
    rw [pickAction_closing_nonempty font isDragon 0 mx my d hne]
    rfl
  | true =>
    by_cases hin : st.loc.x ≤ mx ∧ mx ≤ st.loc.x + st.loc.width ∧
        st.loc.y ≤ my ∧ my ≤ st.loc.y + st.loc.height
    · rw [pickAction_resolve font isDragon 0 mx my true true d st (by simp)
        hstate hframe hin]
      obtain ⟨a, ha⟩ : ∃ a, d.action = [a] := by
        cases hl : d.action with
        | nil => rw [hl] at hone; simp at hone
        | cons x t =>
          rw [hl] at hone
          simp at hone
          exact ⟨x, by rw [hone]⟩
      rw [ha, specFindActionIdx_singleton]
      by_cases hp : ((a.strStart : Int) ≤ (pickResolvedSt font d st mx my).strMouseLoc ∧
            (pickResolvedSt font d st mx my).strMouseLoc ≤ (a.strEnd : Int)) ∨
          ((pickResolvedSt font d st mx my).strMouseLoc = (a.strEnd : Int) + 1 ∧
            pickUnderChar d.str (pickResolvedSt font d st mx my).strMouseLoc = '\r' ∧
            d.str.getD a.strEnd (Char.ofNat 0) ≠ '\r')
      · rw [if_pos hp]
      · rw [if_neg hp]
        simp
    · rw [pickAction_outside font isDragon 0 mx my true true d st (by simp)
        hstate hin]
      rw [if_pos ⟨rfl, hone⟩]
      rfl

/-- The trivial success of `okSync`, stated once for reuse. -/
theorem okSync_ok : ∀ r, (okSync r).2 = none := fun _ => rfl

/-- The constant error of `errSync`, stated once for reuse. -/
theorem errSync_err : ∀ r, (errSync r).2 = some 7 := fun _ => rfl

/-! ## The claims -/

/-- Claim C1: resolving a valid character offset `o` to a screen position
(`drawFindSelectionXY`) and that position back to an offset
(`drawFindSelectionTxtOffset`) yields `o` exactly when `o` starts a wrapped
line, and the immediately preceding offset `o - 1` otherwise — not only at
the elided line-break characters, as claimed: the closed-boundary
comparison `lastMouseX <= dlgx + charwidth` makes the backward resolution
land one character early everywhere except at line starts. -/
theorem c1_offset_position_roundtrip
    (font : FontMetrics) (s : List Char) (lines : List (List Char)) (maxW : Int)
    (leftJust : Bool) (st0 : DialogState) (o : Nat)
    (hwrapEq : font.wordWrap s st0.loc.width = (lines, maxW))
    (hwrap : WrapOk s lines)
    (hw : ∀ c, 1 ≤ font.charWidth c)
    (hh : 1 ≤ font.fontHeight)
    (hst : st0.strMouseLoc = (o : Int))
    (ho1 : 1 ≤ o) (ho2 : o < s.length)
    (hnoov : ¬ (st0.loc.x + st0.loc.width <
      xyComputedX font s leftJust st0.loc (o : Int) + font.charWidth o)) :
    (drawFindSelectionTxtOffset font s leftJust
        (drawFindSelectionXY font s leftJust st0)).strMouseLoc =
      (if o ∈ lineStarts lines then (o : Int) else (o : Int) - 1) :=
  roundtrip_core font s lines maxW leftJust st0 o hwrapEq hwrap hw hh hst ho1 ho2 hnoov

/-- The round trip evaluated on a concrete one-line dialog at offset 1. -/
theorem c1_offset_position_roundtrip_witness :
    (drawFindSelectionTxtOffset font1 "ab".toList false
        (drawFindSelectionXY font1 "ab".toList false c1st)).strMouseLoc =
      (if 1 ∈ lineStarts [['a','b']] then ((1 : Nat) : Int) else ((1 : Nat) : Int) - 1) :=
  c1_offset_position_roundtrip font1 "ab".toList [['a','b']] 0 false c1st 1
    (by decide) ⟨by decide, by decide, by decide, by decide⟩ (fun _ => le_refl 1)
    (by decide) (by decide) (by decide) (by decide) (by decide)

/-- Offset 1 of `"ab"` is on no line-wrap boundary (the single line starts
at 0), yet the round trip returns 0, not 1: the exception in the claim is
not restricted to elided break characters. -/
theorem c1_offset_position_roundtrip_cex :
    (drawFindSelectionTxtOffset font1 "ab".toList false
        (drawFindSelectionXY font1 "ab".toList false c1st)).strMouseLoc = 0 ∧
    c1st.strMouseLoc = 1 ∧ lineStarts [['a','b']] = [0] ∧ (0 : Int) ≠ 1 := by decide

/-- Claim C2: a self-transition, and a transition to a scene with no
backing resource, return `false`, warn once, and leave the state unchanged
— provided the transition does not first auto-close an open inventory
(not going to or from scene 2 with the inventory open); that path mutates
inventory state even when the target scene is missing. -/
theorem c2_changeScene_reject :
    (∀ (R B E : Type) (fuel : Nat) (env : Env R B E) (st : EngineSt R B),
        changeSceneF (fuel + 1) env st st.sceneNum =
          some (st, false, [Warn.selfScene st.sceneNum])) ∧
    (∀ (R B E : Type) (fuel : Nat) (env : Env R B E) (st : EngineSt R B) (target : Nat),
        target ≠ st.sceneNum → env.hasResource target = false →
        ¬(target ≠ 2 ∧ st.sceneNum ≠ 2 ∧ st.invOpen = true) →
        changeSceneF (fuel + 1) env st target =
          some (st, false, [Warn.missingScene target])) :=
  ⟨fun _ _ _ fuel env st => changeScene_self fuel env st,
   fun _ _ _ fuel env st target h1 h2 h3 => changeScene_missing fuel env st target h1 h2 h3⟩

/-- Both rejection paths evaluated on a concrete engine state. -/
theorem c2_changeScene_reject_witness :
    changeSceneF 1 env0 stU stU.sceneNum =
      some (stU, false, [Warn.selfScene stU.sceneNum]) ∧
    changeSceneF 1 env0 stU 3 = some (stU, false, [Warn.missingScene 3]) :=
  ⟨c2_changeScene_reject.1 Unit Unit Unit 0 env0 stU,
   c2_changeScene_reject.2 Unit Unit Unit 0 env0 stU 3 (by decide) (by decide) (by decide)⟩

/-- A transition to a missing scene from a state with the inventory open
returns `false` and warns, but flips `invOpen` (and, through the inner
`changeScene` call of `Inventory::close`, also reports a self-scene
warning): the state is not left unchanged. -/
theorem c2_changeScene_reject_cex :
    (changeSceneF 2 env0 st0 7).map (fun p => (p.1.invOpen, p.2.1, p.2.2)) =
      some (false, false, [Warn.selfScene 5, Warn.missingScene 7]) ∧
    st0.invOpen = true := by decide

/-- Claim C5: with a recorded valid selection `i`, one `advance(delta)`
call sets the shared index to `(i + delta)` wrapped modulo the action
count; the wrap map itself is the Euclidean remainder (negative values
brought into range by repeated addition of the count), lands in `[0, n)`,
and iterating it `n` times is the identity on in-range indices. The
original claim's per-call cycling fails because a repeat call resets the
base index to 0 whenever the shared change marker is already owned. -/
theorem c5_advance_wrap :
    (∀ (font : FontMetrics) (isDragon : Bool) (thisId : Nat) (delta : Int)
        (d : Dialog) (g : DialogGlobals) (st : DialogState) (i : Nat),
        d.state = some st → st.selectedAction = some i → i < d.action.length →
        (d.frameType = 1 ∨ d.frameType = 2 ∨ d.frameType = 3 ∨ d.frameType = 4) →
        (updateSelectedAction font isDragon thisId delta d g).map
            (fun t => t.2.1.lastSelectedDialogItemNum) =
          some (((i : Int) + delta) % (d.action.length : Int))) ∧
    (∀ (delta : Int) (n : Nat), 0 < n →
        ∀ i : Int, 0 ≤ i → i < (n : Int) →
          (fun j => wrapIdx (j + delta) n)^[n] i = i) ∧
    (∀ (i : Int) (n : Nat), 0 < n →
        wrapIdx i n = i % (n : Int) ∧ 0 ≤ wrapIdx i n ∧ wrapIdx i n < (n : Int)) :=
  ⟨fun font isDragon thisId delta d g st i h1 h2 h3 h4 =>
      updateSelectedAction_step font isDragon thisId delta d g st i h1 h2 h3 h4,
   fun delta n hn i h0 h1 => advance_cycle delta n hn i h0 h1,
   fun i n hn =>
     ⟨wrapIdx_eq_emod i n hn, (wrapIdx_range i n hn).1, (wrapIdx_range i n hn).2⟩⟩

/-- The three parts evaluated concretely: one advance from recorded
selection 0 on the two-action dialog, a full 2-cycle of the wrap map, and
the wrap of a negative index. -/
theorem c5_advance_wrap_witness :
    (updateSelectedAction font1 false 1 1 c5dlg {}).map
        (fun t => t.2.1.lastSelectedDialogItemNum) = some 1 ∧
    (fun j => wrapIdx (j + 1) 2)^[2] 0 = 0 ∧
    (wrapIdx (-5) 3 = (-5) % ((3 : Nat) : Int) ∧ 0 ≤ wrapIdx (-5) 3 ∧
      wrapIdx (-5) 3 < ((3 : Nat) : Int)) := by
  refine ⟨?_, ?_, ?_⟩
  · have h := c5_advance_wrap.1 font1 false 1 1 c5dlg {}
      { loc := ⟨10, 10, 200, 100⟩, selectedAction := some 0 } 0 rfl rfl
      (by decide) (Or.inl rfl)
    rw [h]
    decide
  · exact c5_advance_wrap.2.1 1 2 (by decide) 0 (by decide) (by decide)
  · exact c5_advance_wrap.2.2 (-5) 3 (by decide)

/-- Two `advance(1)` calls on the two-action dialog whose recorded
selection is 0 end at index 1, not back at the original 0: `n` calls do
not return to the original value. -/
theorem c5_advance_wrap_cex :
    c5run2.map (fun t => t.2.1.lastSelectedDialogItemNum) = some 1 ∧
    c5dlg.action.length = 2 ∧ (1 : Int) ≠ 0 := by decide

/-- Claim C6: on the two-action direction menu, all three successive
`advance(1)` calls from the unselected state select index 1 — not the
claimed 0, 1, 0: the first call hands the change marker over without
using the stale shared index, and each repeat call resets the base to 0
because the marker is already owned, so `0 + 1` wraps to 1 every time. -/
theorem c6_three_advances :
    c6run1.map (fun t => t.2.1.lastSelectedDialogItemNum) = some 1 ∧
    c6run2.map (fun t => t.2.1.lastSelectedDialogItemNum) = some 1 ∧
    c6run3.map (fun t => t.2.1.lastSelectedDialogItemNum) = some 1 := by decide

/-- The first `advance(1)` call from the unselected state does not select
index 0 as claimed. -/
theorem c6_three_advances_cex :
    c6run1.map (fun t => t.2.1.lastSelectedDialogItemNum) ≠ some 0 := by decide

/-- Claim C8: `drawFindSelectionTxtOffset` equals the specified
composition — walk lines while the line's bottom edge is above the target
y, then accumulate glyph widths until the cumulative width meets or
exceeds the target x, returning an index into the original unwrapped
string with the string length as the no-hit sentinel — except that when
the located line has no matching character the scan continues into the
subsequent lines (x reset to the line start) instead of returning the
sentinel immediately. -/
theorem c8_txtOffset_resolution (font : FontMetrics) (s : List Char)
    (leftJust : Bool) (st : DialogState) :
    (drawFindSelectionTxtOffset font s leftJust st).strMouseLoc =
      specTxtOffset font s leftJust st :=
  drawFindSelectionTxtOffset_eq_spec font s leftJust st

/-- With the mouse to the right of the short first line, the embedded code
resolves to offset 6 on the second line, while the claim's
located-line-only reading returns the end-of-text sentinel 7. -/
theorem c8_txtOffset_resolution_cex :
    (drawFindSelectionTxtOffset font2 "ab cdef".toList false c8st).strMouseLoc = 6 ∧
    txtOffsetLocatedLineOnly font2 "ab cdef".toList false c8st = 7 := by decide

/-- Claim C9: each per-type frame renderer (`drawType1` .. `drawType4`) is
a no-op when no `DialogState` exists — but `Dialog::draw` itself is not:
it first creates a fresh `DialogState` whenever one is absent, so a draw
request on a recognised frame type always succeeds, draws, and leaves the
dialog with a state. -/
theorem c9_stateless_draw :
    (∀ (font : FontMetrics) (d : Dialog) (stage : DialogDrawStage),
        d.state = none → drawType1 font d stage = (d, [])) ∧
    (∀ (font : FontMetrics) (isDragon : Bool) (d : Dialog) (stage : DialogDrawStage),
        d.state = none → drawType2 font isDragon d stage = (d, [])) ∧
    (∀ (font : FontMetrics) (d : Dialog) (stage : DialogDrawStage),
        d.state = none → drawType3 font d stage = (d, [])) ∧
    (∀ (font : FontMetrics) (d : Dialog) (stage : DialogDrawStage),
        d.state = none → drawType4 font d stage = (d, [])) ∧
    (∀ (font : FontMetrics) (isDragon : Bool) (d : Dialog) (stage : DialogDrawStage),
        (d.frameType = 1 ∨ d.frameType = 2 ∨ d.frameType = 3 ∨ d.frameType = 4) →
        ∃ p, Dialog.draw font isDragon d stage = some p ∧ p.1.state.isSome) :=
  ⟨fun font d stage h => drawType1_noState font d stage h,
   fun font isDragon d stage h => drawType2_noState font isDragon d stage h,
   fun font d stage h => drawType3_noState font d stage h,
   fun font d stage h => drawType4_noState font d stage h,
   fun font isDragon d stage hframe => Dialog.draw_ensures_state font isDragon d stage hframe⟩

/-- Both halves evaluated on a concrete stateless dialog. -/
theorem c9_stateless_draw_witness :
    drawType1 font1 c9dlg DialogDrawStage.background = (c9dlg, []) ∧
    ∃ p, Dialog.draw font1 false c9dlg DialogDrawStage.background = some p ∧
      p.1.state.isSome :=
  ⟨c9_stateless_draw.1 font1 c9dlg DialogDrawStage.background rfl,
   c9_stateless_draw.2.2.2.2 font1 false c9dlg DialogDrawStage.background (Or.inl rfl)⟩

/-- A background draw on a stateless type-1 dialog emits draw commands and
creates a `DialogState`: the draw request is not a no-op and the absence
of a state is not preserved. -/
theorem c9_stateless_draw_cex :
    (Dialog.draw font1 false c9dlg DialogDrawStage.background).map
        (fun p => (p.1.state.isSome, p.2.isEmpty)) = some (true, false) ∧
    c9dlg.state = none := by decide

/-- Claim C10: on a dialog with an empty action list (and an existing
state) `updateSelectedAction(delta)` performs no wrap — no modulo or
division happens, the call completes — and the shared index becomes, plus
`delta` and unwrapped, the previous value when the shared change marker
was unowned, but 0 when it was already owned (the claim omitted the
marker-owned reset). -/
theorem c10_empty_actions_no_wrap (font : FontMetrics) (isDragon : Bool)
    (thisId : Nat) (delta : Int) (d : Dialog) (g : DialogGlobals) (st : DialogState)
    (hstate : d.state = some st) (hact : d.action = []) :
    updateSelectedAction font isDragon thisId delta d g =
      some (d,
        { lastSelectedDialogItemNum :=
            (if g.lastDialogSelectionChangedFor = none then
              g.lastSelectedDialogItemNum else 0) + delta,
          lastDialogSelectionChangedFor := some thisId },
        if delta = 0 then some (st.loc.x + st.loc.width, st.loc.y + st.loc.height - 2)
        else none) :=
  updateSelectedAction_empty font isDragon thisId delta d g st hstate hact

/-- An empty-action call with unowned marker, previous index 5 and delta
-7 completes with the unwrapped (negative) index -2. -/
theorem c10_empty_actions_no_wrap_witness :
    updateSelectedAction font1 false 1 (-7) c10dlg
        { lastSelectedDialogItemNum := 5, lastDialogSelectionChangedFor := none } =
      some (c10dlg,
        { lastSelectedDialogItemNum := -2, lastDialogSelectionChangedFor := some 1 },
        none) := by
  rw [c10_empty_actions_no_wrap font1 false 1 (-7) c10dlg
      { lastSelectedDialogItemNum := 5, lastDialogSelectionChangedFor := none }
      {} rfl rfl]
  decide

/-- With the marker already owned and previous shared index 5, a delta of
1 yields 1 (the base was reset to 0), not the claimed 5 + 1. -/
theorem c10_empty_actions_no_wrap_cex :
    (updateSelectedAction font1 false 1 1 c10dlg
        { lastSelectedDialogItemNum := 5, lastDialogSelectionChangedFor := some 3 }).map
      (fun t => t.2.1.lastSelectedDialogItemNum) = some 1 ∧ (1 : Int) ≠ 5 + 1 := by decide

/-- Claim C7: `pickAction` case analysis.  Closing without force: the
RNG-drawn index when actions exist, nothing when none do.  Otherwise, with
the pointer inside the text area, the stored position is resolved to a
character offset and the chosen action is the first whose span contains
the offset — an offset one past an action's end on a carriage-return
boundary counting as inside — falling back, like the outside-the-area
case, to action 0 exactly when the dialog is closing with one action.
A closing single-action dialog always yields that action. -/
theorem c7_pickAction_cases :
    (∀ (font : FontMetrics) (isDragon : Bool) (r : Nat) (mx my : Int) (d : Dialog),
        d.action ≠ [] →
        pickAction font isDragon r mx my true false d = some (d, some r)) ∧
    (∀ (font : FontMetrics) (isDragon : Bool) (r : Nat) (mx my : Int) (d : Dialog),
        d.action = [] →
        pickAction font isDragon r mx my true false d = some (d, none)) ∧
    (∀ (font : FontMetrics) (isDragon : Bool) (r : Nat) (mx my : Int)
        (isClosing isForceClose : Bool) (d : Dialog) (st : DialogState),
        (!isForceClose && isClosing) = false → d.state = some st →
        (d.frameType = 1 ∨ d.frameType = 2 ∨ d.frameType = 3 ∨ d.frameType = 4) →
        (st.loc.x ≤ mx ∧ mx ≤ st.loc.x + st.loc.width ∧
         st.loc.y ≤ my ∧ my ≤ st.loc.y + st.loc.height) →
        (pickAction font isDragon r mx my isClosing isForceClose d).map
            (fun p => p.2) =
          some (match specFindActionIdx d.str
                  (pickUnderChar d.str (pickResolvedSt font d st mx my).strMouseLoc)
                  (pickResolvedSt font d st mx my).strMouseLoc d.action with
                | some i => some i
                | none =>
                  if isClosing = true ∧ d.action.length = 1 then some 0 else none)) ∧
    (∀ (font : FontMetrics) (isDragon : Bool) (r : Nat) (mx my : Int)
        (isClosing isForceClose : Bool) (d : Dialog) (st : DialogState),
        (!isForceClose && isClosing) = false → d.state = some st →
        ¬(st.loc.x ≤ mx ∧ mx ≤ st.loc.x + st.loc.width ∧
          st.loc.y ≤ my ∧ my ≤ st.loc.y + st.loc.height) →
        pickAction font isDragon r mx my isClosing isForceClose d =
          (if isClosing = true ∧ d.action.length = 1 then some (d, some 0)
           else some (d, none))) ∧
    (∀ (font : FontMetrics) (isDragon : Bool) (r : Nat) (mx my : Int)
        (isForceClose : Bool) (d : Dialog) (st : DialogState),
        d.state = some st →
        (d.frameType = 1 ∨ d.frameType = 2 ∨ d.frameType = 3 ∨ d.frameType = 4) →
        d.action.length = 1 → r < d.action.length →
        (pickAction font isDragon r mx my true isForceClose d).map (fun p => p.2) =
          some (some 0)) :=
  ⟨fun font isDragon r mx my d hne =>
      pickAction_closing_nonempty font isDragon r mx my d hne,
   fun font isDragon r mx my d hact =>
      pickAction_closing_empty font isDragon r mx my d hact,
   fun font isDragon r mx my isClosing isForceClose d st hcond hstate hframe hin =>
      pickAction_resolve font isDragon r mx my isClosing isForceClose d st
        hcond hstate hframe hin,
   fun font isDragon r mx my isClosing isForceClose d st hcond hstate hout =>
      pickAction_outside font isDragon r mx my isClosing isForceClose d st
        hcond hstate hout,
   fun font isDragon r mx my isForceClose d st hstate hframe hone hr =>
      pickAction_closing_singleton font isDragon r mx my isForceClose d st
        hstate hframe hone hr⟩

/-- All five cases evaluated on concrete dialogs: random pick while
closing, empty-action close, pointer resolution inside the area (hits the
first action at offset 0), the outside fallback, and the closing
single-action dialog. -/
theorem c7_pickAction_cases_witness :
    pickAction font1 false 1 0 0 true false c7dlg = some (c7dlg, some 1) ∧
    pickAction font1 false 0 1 1 true false c10dlg = some (c10dlg, none) ∧
    (pickAction font1 false 0 1 1 false false c7dlg).map (fun p => p.2) =
      some (some 0) ∧
    pickAction font1 false 0 100 100 false false c7dlg = some (c7dlg, none) ∧
    (pickAction font1 false 0 50 50 true true c7one).map (fun p => p.2) =
      some (some 0) := by
  refine ⟨?_, ?_, ?_, ?_, ?_⟩
  · exact c7_pickAction_cases.1 font1 false 1 0 0 c7dlg (by decide)
  · exact c7_pickAction_cases.2.1 font1 false 0 1 1 c10dlg rfl
  · have h := c7_pickAction_cases.2.2.1 font1 false 0 1 1 false false c7dlg
      { loc := ⟨0, 0, 20, 10⟩ } rfl rfl (Or.inl rfl) (by decide)
    rw [h]
    decide
  · have h := c7_pickAction_cases.2.2.2.1 font1 false 0 100 100 false false c7dlg
      { loc := ⟨0, 0, 20, 10⟩ } rfl rfl (by decide)
    rw [h]
    decide
  · exact c7_pickAction_cases.2.2.2.2 font1 false 0 50 50 true c7one
      { loc := ⟨0, 0, 20, 10⟩ } rfl (Or.inl rfl) rfl (by decide)

/-- Claim C3: `syncGame` synchronizes in the fixed order — scene
directory, scene number, scene state, globals, clock, inventory, palette
(version < 4 only), ADS interpreter, text speed, the two just-changed
flags, play time, background file, then the enter-ops re-run — and a
failing subsystem stops the sequence at that step with the error
propagated unchanged. -/
theorem c3_syncGame_order_short_circuit :
    (∀ (R B E : Type) (env : Env R B E) (ser : Ser) (st : EngineSt R B),
        (ser.isLoading = true → ser.version ≤ 4) →
        (ser.isLoading = true → env.hasResource ser.loadSceneNum = true) →
        (∀ r, (env.gdsSceneSync r).2 = none) →
        (∀ r, (env.sceneSync r).2 = none) →
        (∀ r, (env.globalsSync r).2 = none) →
        (∀ r, (env.clockSync r).2 = none) →
        (∀ r, (env.inventorySync r).2 = none) →
        (∀ r, (env.palsSync r).2 = none) →
        (∀ r, (env.adsSync r).2 = none) →
        (syncGame env ser st).map (fun t => (t.2.1, t.2.2)) =
          some (none,
            expectedSyncOrder ser.isLoading
              (if ser.isLoading then ser.version else 4))) ∧
    (∀ (R B E : Type) (env : Env R B E) (ser : Ser) (st : EngineSt R B) (e : E),
        (ser.isLoading = true → ser.version ≤ 4) →
        (∀ r, (env.gdsSceneSync r).2 = some e) →
        (syncGame env ser st).map (fun t => (t.2.1, t.2.2)) =
          some (some e, [SyncStep.sceneDir])) ∧
    (∀ (R B E : Type) (env : Env R B E) (ser : Ser) (st : EngineSt R B) (e : E),
        (ser.isLoading = true → ser.version ≤ 4) →
        (ser.isLoading = true → env.hasResource ser.loadSceneNum = true) →
        (∀ r, (env.gdsSceneSync r).2 = none) →
        (∀ r, (env.sceneSync r).2 = some e) →
        (syncGame env ser st).map (fun t => (t.2.1, t.2.2)) =
          some (some e, [SyncStep.sceneDir, SyncStep.sceneNum, SyncStep.sceneState])) ∧
    (∀ (R B E : Type) (env : Env R B E) (ser : Ser) (st : EngineSt R B) (e : E),
        (ser.isLoading = true → ser.version ≤ 4) →
        (ser.isLoading = true → env.hasResource ser.loadSceneNum = true) →
        (∀ r, (env.gdsSceneSync r).2 = none) →
        (∀ r, (env.sceneSync r).2 = none) →
        (∀ r, (env.globalsSync r).2 = some e) →
        (syncGame env ser st).map (fun t => (t.2.1, t.2.2)) =
          some (some e, [SyncStep.sceneDir, SyncStep.sceneNum, SyncStep.sceneState,
                         SyncStep.globals])) ∧
    (∀ (R B E : Type) (env : Env R B E) (ser : Ser) (st : EngineSt R B) (e : E),
        (ser.isLoading = true → ser.version ≤ 4) →
        (ser.isLoading = true → env.hasResource ser.loadSceneNum = true) →
        (∀ r, (env.gdsSceneSync r).2 = none) →
        (∀ r, (env.sceneSync r).2 = none) →
        (∀ r, (env.globalsSync r).2 = none) →
        (∀ r, (env.clockSync r).2 = some e) →
        (syncGame env ser st).map (fun t => (t.2.1, t.2.2)) =
          some (some e, [SyncStep.sceneDir, SyncStep.sceneNum, SyncStep.sceneState,
                         SyncStep.globals, SyncStep.clock])) ∧
    (∀ (R B E : Type) (env : Env R B E) (ser : Ser) (st : EngineSt R B) (e : E),
        (ser.isLoading = true → ser.version ≤ 4) →
        (ser.isLoading = true → env.hasResource ser.loadSceneNum = true) →
        (∀ r, (env.gdsSceneSync r).2 = none) →
        (∀ r, (env.sceneSync r).2 = none) →
        (∀ r, (env.globalsSync r).2 = none) →
        (∀ r, (env.clockSync r).2 = none) →
        (∀ r, (env.inventorySync r).2 = some e) →
        (syncGame env ser st).map (fun t => (t.2.1, t.2.2)) =
          some (some e, [SyncStep.sceneDir, SyncStep.sceneNum, SyncStep.sceneState,
                         SyncStep.globals, SyncStep.clock, SyncStep.inventory])) ∧
    (∀ (R B E : Type) (env : Env R B E) (ser : Ser) (st : EngineSt R B) (e : E),
        ser.isLoading = true → ser.version < 4 →
        env.hasResource ser.loadSceneNum = true →
        (∀ r, (env.gdsSceneSync r).2 = none) →
        (∀ r, (env.sceneSync r).2 = none) →
        (∀ r, (env.globalsSync r).2 = none) →
        (∀ r, (env.clockSync r).2 = none) →
        (∀ r, (env.inventorySync r).2 = none) →
        (∀ r, (env.palsSync r).2 = some e) →
        (syncGame env ser st).map (fun t => (t.2.1, t.2.2)) =
          some (some e, [SyncStep.sceneDir, SyncStep.sceneNum, SyncStep.sceneState,
                         SyncStep.globals, SyncStep.clock, SyncStep.inventory,
                         SyncStep.palette])) ∧
    (∀ (R B E : Type) (env : Env R B E) (ser : Ser) (st : EngineSt R B) (e : E),
        (ser.isLoading = true → ser.version ≤ 4) →
        (ser.isLoading = true → env.hasResource ser.loadSceneNum = true) →
        (∀ r, (env.gdsSceneSync r).2 = none) →
        (∀ r, (env.sceneSync r).2 = none) →
        (∀ r, (env.globalsSync r).2 = none) →
        (∀ r, (env.clockSync r).2 = none) →
        (∀ r, (env.inventorySync r).2 = none) →
        (∀ r, (env.palsSync r).2 = none) →
        (∀ r, (env.adsSync r).2 = some e) →
        (syncGame env ser st).map (fun t => (t.2.1, t.2.2)) =
          some (some e,
            ([SyncStep.sceneDir, SyncStep.sceneNum, SyncStep.sceneState,
              SyncStep.globals, SyncStep.clock, SyncStep.inventory]
             ++ (if (if ser.isLoading then ser.version else 4) < 4 then
                   [SyncStep.palette]
                 else if ser.isLoading then [SyncStep.paletteReset] else [])
             ++ [SyncStep.ads]))) := by
  refine ⟨?_, ?_, ?_, ?_, ?_, ?_, ?_, ?_⟩
  · intro R B E env ser st hver hres h1 h2 h3 h4 h5 h6 h7
    exact syncGame_success env ser st hver hres h1 h2 h3 h4 h5 h6 h7
  · intro R B E env ser st e hver herr
    exact syncGame_err_gds env ser st e hver herr
  · intro R B E env ser st e hver hres h1 herr
    have h := syncGame_err_mid env ser st e []
      [(env.globalsSync, SyncStep.globals), (env.clockSync, SyncStep.clock),
       (env.inventorySync, SyncStep.inventory)]
      env.sceneSync SyncStep.sceneState rfl hver hres h1 (by simp) herr
    simpa using h
  · intro R B E env ser st e hver hres h1 h2 herr
    have h := syncGame_err_mid env ser st e [(env.sceneSync, SyncStep.sceneState)]
      [(env.clockSync, SyncStep.clock), (env.inventorySync, SyncStep.inventory)]
      env.globalsSync SyncStep.globals rfl hver hres h1
      (by
        intro p hp r
        simp only [List.mem_singleton] at hp
        subst hp
        exact h2 r)
      herr
    simpa using h
  · intro R B E env ser st e hver hres h1 h2 h3 herr
    have h := syncGame_err_mid env ser st e
      [(env.sceneSync, SyncStep.sceneState), (env.globalsSync, SyncStep.globals)]
      [(env.inventorySync, SyncStep.inventory)]
      env.clockSync SyncStep.clock rfl hver hres h1
      (by
        intro p hp r
        simp only [List.mem_cons, List.not_mem_nil, or_false] at hp
        rcases hp with rfl | rfl
        · exact h2 r
        · exact h3 r)
      herr
    simpa using h
  · intro R B E env ser st e hver hres h1 h2 h3 h4 herr
    have h := syncGame_err_mid env ser st e
      [(env.sceneSync, SyncStep.sceneState), (env.globalsSync, SyncStep.globals),
       (env.clockSync, SyncStep.clock)]
      []
      env.inventorySync SyncStep.inventory rfl hver hres h1
      (by
        intro p hp r
        simp only [List.mem_cons, List.not_mem_nil, or_false] at hp
        rcases hp with rfl | rfl | rfl
        · exact h2 r
        · exact h3 r
        · exact h4 r)
      herr
    simpa using h
  · intro R B E env ser st e hl hv hres h1 h2 h3 h4 h5 herr
    exact syncGame_err_pals env ser st e hl hv hres h1 h2 h3 h4 h5 herr
  · intro R B E env ser st e hver hres h1 h2 h3 h4 h5 h6 herr
    exact syncGame_err_ads env ser st e hver hres h1 h2 h3 h4 h5 h6 herr

/-- The success order and every failure stop evaluated on concrete
environments (error value 7). -/
theorem c3_syncGame_order_short_circuit_witness :
    (syncGame envOk serSave stU).map (fun t => (t.2.1, t.2.2)) =
      some (none, [SyncStep.sceneDir, SyncStep.sceneNum, SyncStep.sceneState,
                   SyncStep.globals, SyncStep.clock, SyncStep.inventory,
                   SyncStep.ads, SyncStep.textSpeed, SyncStep.flags,
                   SyncStep.playTime, SyncStep.bgFile, SyncStep.enterOps]) ∧
    (syncGame envEgds serSave stU).map (fun t => (t.2.1, t.2.2)) =
      some (some 7, [SyncStep.sceneDir]) ∧
    (syncGame envEscene serSave stU).map (fun t => (t.2.1, t.2.2)) =
      some (some 7, [SyncStep.sceneDir, SyncStep.sceneNum, SyncStep.sceneState]) ∧
    (syncGame envEglob serSave stU).map (fun t => (t.2.1, t.2.2)) =
      some (some 7, [SyncStep.sceneDir, SyncStep.sceneNum, SyncStep.sceneState,
                     SyncStep.globals]) ∧
    (syncGame envEclock serSave stU).map (fun t => (t.2.1, t.2.2)) =
      some (some 7, [SyncStep.sceneDir, SyncStep.sceneNum, SyncStep.sceneState,
                     SyncStep.globals, SyncStep.clock]) ∧
    (syncGame envEinv serSave stU).map (fun t => (t.2.1, t.2.2)) =
      some (some 7, [SyncStep.sceneDir, SyncStep.sceneNum, SyncStep.sceneState,
                     SyncStep.globals, SyncStep.clock, SyncStep.inventory]) ∧
    (syncGame envEpals serLoad3 stU).map (fun t => (t.2.1, t.2.2)) =
      some (some 7, [SyncStep.sceneDir, SyncStep.sceneNum, SyncStep.sceneState,
                     SyncStep.globals, SyncStep.clock, SyncStep.inventory,
                     SyncStep.palette]) ∧
    (syncGame envEads serSave stU).map (fun t => (t.2.1, t.2.2)) =
      some (some 7, [SyncStep.sceneDir, SyncStep.sceneNum, SyncStep.sceneState,
                     SyncStep.globals, SyncStep.clock, SyncStep.inventory,
                     SyncStep.ads]) := by
  refine ⟨?_, ?_, ?_, ?_, ?_, ?_, ?_, ?_⟩
  · have h := c3_syncGame_order_short_circuit.1 Unit Unit Nat envOk serSave stU
      (by decide) (by decide) okSync_ok okSync_ok okSync_ok
      okSync_ok okSync_ok okSync_ok okSync_ok
    rw [h]
    decide
  · exact c3_syncGame_order_short_circuit.2.1 Unit Unit Nat envEgds serSave stU 7
      (by decide) errSync_err
  · exact c3_syncGame_order_short_circuit.2.2.1 Unit Unit Nat envEscene serSave stU 7
      (by decide) (by decide) okSync_ok errSync_err
  · exact c3_syncGame_order_short_circuit.2.2.2.1 Unit Unit Nat envEglob serSave stU 7
      (by decide) (by decide) okSync_ok okSync_ok errSync_err
  · exact c3_syncGame_order_short_circuit.2.2.2.2.1 Unit Unit Nat envEclock serSave
      stU 7 (by decide) (by decide) okSync_ok okSync_ok okSync_ok
      errSync_err
  · exact c3_syncGame_order_short_circuit.2.2.2.2.2.1 Unit Unit Nat envEinv serSave
      stU 7 (by decide) (by decide) okSync_ok okSync_ok okSync_ok
      okSync_ok errSync_err
  · exact c3_syncGame_order_short_circuit.2.2.2.2.2.2.1 Unit Unit Nat envEpals
      serLoad3 stU 7 rfl (by decide) rfl okSync_ok okSync_ok
      okSync_ok okSync_ok okSync_ok errSync_err
  · have h := c3_syncGame_order_short_circuit.2.2.2.2.2.2.2 Unit Unit Nat envEads
      serSave stU 7 (by decide) (by decide) okSync_ok okSync_ok
      okSync_ok okSync_ok okSync_ok okSync_ok errSync_err
    rw [h]
    decide

/-- Claim C4: loading a save newer than version 4 is fatal; a version-3
load syncs the legacy palette block, a version-4 load skips it and resets
the palettes instead (step `paletteReset` in place of `palette`). -/
theorem c4_syncGame_version_gate :
    (∀ (R B E : Type) (env : Env R B E) (ser : Ser) (st : EngineSt R B),
        ser.isLoading = true → 4 < ser.version → syncGame env ser st = none) ∧
    (∀ (R B E : Type) (env : Env R B E) (ser : Ser) (st : EngineSt R B),
        ser.isLoading = true → ser.version = 3 →
        env.hasResource ser.loadSceneNum = true →
        (∀ r, (env.gdsSceneSync r).2 = none) →
        (∀ r, (env.sceneSync r).2 = none) →
        (∀ r, (env.globalsSync r).2 = none) →
        (∀ r, (env.clockSync r).2 = none) →
        (∀ r, (env.inventorySync r).2 = none) →
        (∀ r, (env.palsSync r).2 = none) →
        (∀ r, (env.adsSync r).2 = none) →
        (syncGame env ser st).map (fun t => (t.2.1, t.2.2)) =
          some (none, [SyncStep.sceneDir, SyncStep.sceneNum, SyncStep.sceneState,
                       SyncStep.globals, SyncStep.clock, SyncStep.inventory,
                       SyncStep.palette, SyncStep.ads, SyncStep.textSpeed,
                       SyncStep.flags, SyncStep.playTime, SyncStep.bgFile,
                       SyncStep.enterOps])) ∧
    (∀ (R B E : Type) (env : Env R B E) (ser : Ser) (st : EngineSt R B),
        ser.isLoading = true → ser.version = 4 →
        env.hasResource ser.loadSceneNum = true →
        (∀ r, (env.gdsSceneSync r).2 = none) →
        (∀ r, (env.sceneSync r).2 = none) →
        (∀ r, (env.globalsSync r).2 = none) →
        (∀ r, (env.clockSync r).2 = none) →
        (∀ r, (env.inventorySync r).2 = none) →
        (∀ r, (env.palsSync r).2 = none) →
        (∀ r, (env.adsSync r).2 = none) →
        (syncGame env ser st).map (fun t => (t.2.1, t.2.2)) =
          some (none, [SyncStep.sceneDir, SyncStep.sceneNum, SyncStep.sceneState,
                       SyncStep.globals, SyncStep.clock, SyncStep.inventory,
                       SyncStep.paletteReset, SyncStep.ads, SyncStep.textSpeed,
                       SyncStep.flags, SyncStep.playTime, SyncStep.bgFile,
                       SyncStep.enterOps])) := by
  refine ⟨?_, ?_, ?_⟩
  · intro R B E env ser st hl hv
    exact syncGame_fatal_version env ser st hl hv
  · intro R B E env ser st hl hv hres h1 h2 h3 h4 h5 h6 h7
    have h := syncGame_success env ser st (fun _ => by omega) (fun _ => hres)
      h1 h2 h3 h4 h5 h6 h7
    rw [h]
    simp [expectedSyncOrder, hl, hv]
  · intro R B E env ser st hl hv hres h1 h2 h3 h4 h5 h6 h7
    have h := syncGame_success env ser st (fun _ => by omega) (fun _ => hres)
      h1 h2 h3 h4 h5 h6 h7
    rw [h]
    simp [expectedSyncOrder, hl, hv]

/-- The fatal version-5 load and the version-3 / version-4 palette
handling evaluated on concrete environments. -/
theorem c4_syncGame_version_gate_witness :
    syncGame envOk serLoad5 stU = none ∧
    (syncGame envOk serLoad3 stU).map (fun t => (t.2.1, t.2.2)) =
      some (none, [SyncStep.sceneDir, SyncStep.sceneNum, SyncStep.sceneState,
                   SyncStep.globals, SyncStep.clock, SyncStep.inventory,
                   SyncStep.palette, SyncStep.ads, SyncStep.textSpeed,
                   SyncStep.flags, SyncStep.playTime, SyncStep.bgFile,
                   SyncStep.enterOps]) ∧
    (syncGame envOk serLoad4 stU).map (fun t => (t.2.1, t.2.2)) =
      some (none, [SyncStep.sceneDir, SyncStep.sceneNum, SyncStep.sceneState,
                   SyncStep.globals, SyncStep.clock, SyncStep.inventory,
                   SyncStep.paletteReset, SyncStep.ads, SyncStep.textSpeed,
                   SyncStep.flags, SyncStep.playTime, SyncStep.bgFile,
                   SyncStep.enterOps]) :=
  ⟨c4_syncGame_version_gate.1 Unit Unit Nat envOk serLoad5 stU rfl (by decide),
   c4_syncGame_version_gate.2.1 Unit Unit Nat envOk serLoad3 stU rfl rfl rfl
     okSync_ok okSync_ok okSync_ok okSync_ok okSync_ok
     okSync_ok okSync_ok,
   c4_syncGame_version_gate.2.2 Unit Unit Nat envOk serLoad4 stU rfl rfl rfl
     okSync_ok okSync_ok okSync_ok okSync_ok okSync_ok
     okSync_ok okSync_ok⟩

end DgdsSpec
